import Mathlib

/-!
# Verisart API: certificate registry and user directory

A shallow embedding of `internal/utils.go`, `internal/models/user.go` and
`internal/models/certificate.go`, followed by the properties established about them.

Modelling conventions:

* Go strings are modelled by `String`; the bytes hashed are the UTF-8 encoding.
* `crypto/md5` is embedded in full (RFC 1321), with 32-bit words as `Nat` reduced
  modulo `2 ^ 32`, so that identifiers can be computed on concrete inputs.
* A `map[string]*T` is an association list with unique keys (`AList`); the order of the
  entries stands for one possible iteration order of the Go map, and no property below
  depends on it.
* The certificate store holds pointers (`map[string]*Certificate`), and the registry writes
  through them. The state therefore carries `heap`, the record behind every certificate
  address, next to the map from ids to addresses; an operation that takes a `*Certificate`
  takes an address, and reads and writes the record behind it. One address may be stored
  under several ids. What the caller writes to the records it holds between two calls is a
  step of its own in the sequences of calls (`Op.write`).
* The user directory also holds pointers, but the only write through a `*User` is the one
  `CreateUser` makes before it stores the pointer, so a stored user record never changes:
  the two maps of the directory hold the records themselves, and `CreateUser` returns the
  record behind its argument as it is after the call.
* `time.Time` is an abstract instant, modelled by an integer; no operation inspects it.
* An `error` is `Option String`: `none` is `nil`.
-/

namespace Verisart

/-! ## Identifier deriver (`internal/utils.go`) with `crypto/md5` -/

/-- Per-round left-rotation amounts of MD5. -/
def md5S : List Nat :=
  [7, 12, 17, 22, 7, 12, 17, 22, 7, 12, 17, 22, 7, 12, 17, 22,
   5, 9, 14, 20, 5, 9, 14, 20, 5, 9, 14, 20, 5, 9, 14, 20,
   4, 11, 16, 23, 4, 11, 16, 23, 4, 11, 16, 23, 4, 11, 16, 23,
   6, 10, 15, 21, 6, 10, 15, 21, 6, 10, 15, 21, 6, 10, 15, 21]

/-- MD5 round constants, `floor (2^32 * |sin (i + 1)|)`. -/
def md5K : List Nat :=
  [0xd76aa478, 0xe8c7b756, 0x242070db, 0xc1bdceee, 0xf57c0faf, 0x4787c62a, 0xa8304613, 0xfd469501,
   0x698098d8, 0x8b44f7af, 0xffff5bb1, 0x895cd7be, 0x6b901122, 0xfd987193, 0xa679438e, 0x49b40821,
   0xf61e2562, 0xc040b340, 0x265e5a51, 0xe9b6c7aa, 0xd62f105d, 0x02441453, 0xd8a1e681, 0xe7d3fbc8,
   0x21e1cde6, 0xc33707d6, 0xf4d50d87, 0x455a14ed, 0xa9e3e905, 0xfcefa3f8, 0x676f02d9, 0x8d2a4c8a,
   0xfffa3942, 0x8771f681, 0x6d9d6122, 0xfde5380c, 0xa4beea44, 0x4bdecfa9, 0xf6bb4b60, 0xbebfbc70,
   0x289b7ec6, 0xeaa127fa, 0xd4ef3085, 0x04881d05, 0xd9d4d039, 0xe6db99e5, 0x1fa27cf8, 0xc4ac5665,
   0xf4292244, 0x432aff97, 0xab9423a7, 0xfc93a039, 0x655b59c3, 0x8f0ccc92, 0xffeff47d, 0x85845dd1,
   0x6fa87e4f, 0xfe2ce6e0, 0xa3014314, 0x4e0811a1, 0xf7537e82, 0xbd3af235, 0x2ad7d2bb, 0xeb86d391]

/-- Modulus of 32-bit words. -/
def w32 : Nat := 4294967296

/-- Left rotation of a 32-bit word by `c` bits, `0 < c < 32`. -/
def rotl32 (x c : Nat) : Nat := ((x <<< c) % w32) ||| (x >>> (32 - c))

/-- Bitwise complement of a 32-bit word. -/
def not32 (x : Nat) : Nat := (w32 - 1) - x

/-- The four chaining words of MD5. -/
structure Md5State where
  a : Nat
  b : Nat
  c : Nat
  d : Nat
deriving DecidableEq, Repr

/-- Initial chaining value. -/
def md5Init : Md5State := ⟨0x67452301, 0xefcdab89, 0x98badcfe, 0x10325476⟩

/-- The round function of step `i`. -/
def md5F (i b c d : Nat) : Nat :=
  if i < 16 then (b &&& c) ||| (not32 b &&& d)
  else if i < 32 then (d &&& b) ||| (not32 d &&& c)
  else if i < 48 then b ^^^ c ^^^ d
  else c ^^^ (b ||| not32 d)

/-- The index of the message word used at step `i`. -/
def md5G (i : Nat) : Nat :=
  if i < 16 then i
  else if i < 32 then (5 * i + 1) % 16
  else if i < 48 then (3 * i + 5) % 16
  else (7 * i) % 16

/-- One of the 64 steps on a block whose 16 words are `m`. -/
def md5Step (m : List Nat) (s : Md5State) (i : Nat) : Md5State :=
  let f := (md5F i s.b s.c s.d + s.a + md5K.getD i 0 + m.getD (md5G i) 0) % w32
  ⟨s.d, (s.b + rotl32 f (md5S.getD i 0)) % w32, s.b, s.c⟩

/-- The little-endian 32-bit word made of the first four bytes. -/
def leWord (bs : List Nat) : Nat :=
  bs.getD 0 0 + 256 * bs.getD 1 0 + 65536 * bs.getD 2 0 + 16777216 * bs.getD 3 0

/-- The 16 words of a 64-byte block. -/
def blockWords (bs : List Nat) : List Nat :=
  (List.range 16).map fun j => leWord (bs.drop (4 * j))

/-- Compression of one block into the chaining value. -/
def md5Block (s : Md5State) (bs : List Nat) : Md5State :=
  let r := (List.range 64).foldl (md5Step (blockWords bs)) s
  ⟨(s.a + r.a) % w32, (s.b + r.b) % w32, (s.c + r.c) % w32, (s.d + r.d) % w32⟩

/-- The `n` low bytes of `x`, least significant first. -/
def leBytes (n : Nat) (x : Nat) : List Nat :=
  (List.range n).map fun j => (x >>> (8 * j)) % 256

/-- Message padding: a `0x80` byte, zeros up to 56 modulo 64, then the bit length on 8 bytes. -/
def md5Pad (msg : List Nat) : List Nat :=
  let l := msg.length
  msg ++ [128] ++ List.replicate ((119 - l % 64) % 64) 0 ++ leBytes 8 ((8 * l) % 18446744073709551616)

/-- Compression of the first `n` blocks of `bs`. -/
def md5Blocks : Nat → Md5State → List Nat → Md5State
  | 0, s, _ => s
  | n + 1, s, bs => md5Blocks n (md5Block s (bs.take 64)) (bs.drop 64)

/-- The 16-byte digest of a byte sequence, as `h.Sum(nil)` returns it. -/
def md5Sum (msg : List Nat) : List Nat :=
  let p := md5Pad msg
  let s := md5Blocks (p.length / 64) md5Init p
  leBytes 4 s.a ++ leBytes 4 s.b ++ leBytes 4 s.c ++ leBytes 4 s.d

/-- Lowercase hexadecimal digit of a value below 16. -/
def hexDigit (n : Nat) : Char := "0123456789abcdef".data.getD n '0'

/-- Rendering of a byte slice by `fmt.Sprintf` with the verb `%x`. -/
def hexBytes (bs : List Nat) : String :=
  String.mk (bs.flatMap fun b => [hexDigit (b / 16), hexDigit (b % 16)])

/-- The bytes of a string, as `io.WriteString` feeds them to the hash. -/
def utf8Bytes (s : String) : List Nat :=
  s.data.flatMap fun c => (String.utf8EncodeChar c).map UInt8.toNat

/-- Embedding of `GenerateIDFromString`: the lowercase hex rendering of the MD5 digest. -/
def GenerateIDFromString (str : String) : String :=
  hexBytes (md5Sum (utf8Bytes str))

/-! ## Data model (`internal/models`) -/

deriving instance DecidableEq for Except

/-- A Go `error` value: `none` is `nil`, `some msg` is the error built by `fmt.Errorf`. -/
abbrev Error := Option String

/-- A Go slice of values: `none` is the `nil` slice, `some l` an allocated one. -/
abbrev Slice (α : Type) := Option (List α)

/-- Go's `append(s, x)`: appending to the `nil` slice allocates. -/
def Slice.append {α : Type} : Slice α → α → Slice α
  | none, x => some [x]
  | some l, x => some (l ++ [x])

/-- Go's `len(s)`. -/
def Slice.len {α : Type} : Slice α → Nat
  | none => 0
  | some l => l.length

/-- `type TransferStatus string`. -/
abbrev TransferStatus := String

/-- No transfer has been initiated. -/
def None : TransferStatus := "none"

/-- The transfer has been initiated. -/
def Pending : TransferStatus := "pending"

structure Transfer where
  Email : String
  Status : TransferStatus
deriving DecidableEq, Repr, Inhabited

structure Certificate where
  ID : String
  Title : String
  CreatedAt : Int
  OwnerID : String
  Year : Int
  Note : String
  Transfer : Transfer
deriving DecidableEq, Repr, Inhabited

structure User where
  ID : String
  Email : String
  Name : String
deriving DecidableEq, Repr, Inhabited

/-- A Go `map[string]*T`: finitely many entries, at most one per key. -/
abbrev GoMap (α : Type) := AList (fun _ : String => α)

/-- The address of a `Certificate` record: a `*Certificate`. -/
abbrev Ptr := Nat

structure UserModel where
  store : GoMap User
  emailIndex : GoMap User
deriving DecidableEq

/-- The registry: the records behind the certificate addresses, the map from ids to
addresses (`store`), and the user directory it shares by reference. -/
structure CertificateModel where
  heap : Ptr → Certificate
  store : GoMap Ptr
  userModel : UserModel

/-! ## User directory (`internal/models/user.go`) -/

/-- Embedding of `NewUserModel`: both maps empty. -/
def NewUserModel : UserModel :=
  { store := ∅, emailIndex := ∅ }

/-- Embedding of `GetUserByID`. -/
def UserModel.GetUserByID (u : UserModel) (id : String) : Except String User :=
  match u.store.lookup id with
  | some user => .ok user
  | none => .error "User not found"

/-- Embedding of `GetUserByEmail`. -/
def UserModel.GetUserByEmail (u : UserModel) (email : String) : Except String User :=
  match u.emailIndex.lookup email with
  | some user => .ok user
  | none => .error ("No user with email " ++ email ++ " found")

/-- Embedding of `GetUsers`: the loop over the id map, then the `nil` check. -/
def UserModel.GetUsers (u : UserModel) : Slice User :=
  let users := u.store.entries.foldl (fun (users : Slice User) e => users.append e.2) none
  match users with
  | none => some []
  | some l => some l

/-- Embedding of `CreateUser`. The second component is the record behind the `user`
pointer when the call returns. -/
def UserModel.CreateUser (u : UserModel) (user : User) : UserModel × User × Error :=
  let id := GenerateIDFromString user.Email
  match u.store.lookup id with
  | some _ => (u, user, some "User already exists")
  | none =>
    let user := { user with ID := id }
    ({ store := u.store.insert id user, emailIndex := u.emailIndex.insert user.Email user },
      user, none)

/-! ## Certificate registry (`internal/models/certificate.go`) -/

/-- Memory in which every certificate record has the zero value. -/
def zeroHeap : Ptr → Certificate :=
  fun _ => default

/-- Embedding of `NewCertificateModel`. -/
def NewCertificateModel (userModel : UserModel) : CertificateModel :=
  { heap := zeroHeap, store := ∅, userModel := userModel }

/-- The record read through the pointer stored under `certID`, if one is stored. -/
def CertificateModel.record (c : CertificateModel) (certID : String) : Option Certificate :=
  (c.store.lookup certID).map c.heap

/-- Embedding of `CreateCertificate`: the pointer is stored, then `cert.ID` is written
through it. -/
def CertificateModel.CreateCertificate (c : CertificateModel) (cert : Ptr) :
    CertificateModel × Error :=
  let id := GenerateIDFromString (c.heap cert).Title
  match c.store.lookup id with
  | some _ => (c, some "Certificate already exists")
  | none =>
    ({ c with store := c.store.insert id cert,
              heap := Function.update c.heap cert { c.heap cert with ID := id } }, none)

/-- Embedding of `UpdateCertificate`: the map slot gets the pointer; no record is written. -/
def CertificateModel.UpdateCertificate (c : CertificateModel) (cert : Ptr) :
    CertificateModel × Error :=
  match c.store.lookup (c.heap cert).ID with
  | none => (c, some ("No certificate found with ID " ++ (c.heap cert).ID))
  | some _ => ({ c with store := c.store.insert (c.heap cert).ID cert }, none)

/-- Embedding of `DeleteCertificate`; it has no error result. -/
def CertificateModel.DeleteCertificate (c : CertificateModel) (certID : String) :
    CertificateModel :=
  { c with store := c.store.erase certID }

/-- Embedding of `GetCertificateByID`: the stored pointer, or an error. -/
def CertificateModel.GetCertificateByID (c : CertificateModel) (certID : String) :
    Except String Ptr :=
  match c.store.lookup certID with
  | some cert => .ok cert
  | none => .error "Certificacte not found"

/-- `GetCertificateByID` followed by a read of the record behind the pointer returned. -/
def CertificateModel.readCertificateByID (c : CertificateModel) (certID : String) :
    Except String Certificate :=
  (c.GetCertificateByID certID).map c.heap

/-- Embedding of `CheckCertificateOwnership`: it reads the store and returns no state. -/
def CertificateModel.CheckCertificateOwnership (c : CertificateModel) (certID ownerID : String) :
    Bool × Error :=
  match c.store.lookup certID with
  | some cert => (if (c.heap cert).OwnerID = ownerID then true else false, none)
  | none => (false, some "Certificate does not exists")

/-- Embedding of `CreateTransfer`: `cert.Transfer` is written through the stored pointer. -/
def CertificateModel.CreateTransfer (c : CertificateModel) (certID : String) (tsx : Transfer) :
    CertificateModel × Error :=
  match c.store.lookup certID with
  | some cert =>
    ({ c with heap := Function.update c.heap cert { c.heap cert with Transfer := tsx } }, none)
  | none => (c, some "Certificate does not exists and thus cannot be transfered")

/-- Embedding of `AcceptTransfer`: `cert.OwnerID` and `cert.Transfer` are written through
the stored pointer. The `err` of the user lookup is a new variable of the inner block, and
the result of `CreateUser` is dropped: neither reaches the result. -/
def CertificateModel.AcceptTransfer (c : CertificateModel) (certID : String) :
    CertificateModel × Error :=
  match c.store.lookup certID with
  | none => (c, some "Certificate not found")
  | some cert =>
    if (c.heap cert).Transfer.Status ≠ Pending then
      (c, some "No transfer has been initiated for this certificate")
    else
      let resolved : UserModel × User :=
        match c.userModel.GetUserByEmail (c.heap cert).Transfer.Email with
        | .ok owner => (c.userModel, owner)
        | .error _ =>
          let r := c.userModel.CreateUser
            { ID := "", Name := (c.heap cert).Transfer.Email,
              Email := (c.heap cert).Transfer.Email }
          (r.1, r.2.1)
      ({ heap := Function.update c.heap cert
                   { c.heap cert with OwnerID := resolved.2.ID,
                                      Transfer := { Email := "", Status := None } },
         store := c.store, userModel := resolved.1 }, none)

/-! ## Sequences of calls -/

/-- One step of a program that uses the two models: a call of their public interface, or a
write by the caller to a certificate record it holds (`cert := &Certificate{...}`,
`cert.Note = ...`). -/
inductive Op where
  | createUser (user : User)
  | write (cert : Ptr) (value : Certificate)
  | createCertificate (cert : Ptr)
  | updateCertificate (cert : Ptr)
  | deleteCertificate (certID : String)
  | createTransfer (certID : String) (tsx : Transfer)
  | acceptTransfer (certID : String)
deriving DecidableEq, Repr

/-- The registry (with its user directory) after one step, whatever the call returned. -/
def CertificateModel.step (c : CertificateModel) : Op → CertificateModel
  | .createUser user => { c with userModel := (c.userModel.CreateUser user).1 }
  | .write cert value => { c with heap := Function.update c.heap cert value }
  | .createCertificate cert => (c.CreateCertificate cert).1
  | .updateCertificate cert => (c.UpdateCertificate cert).1
  | .deleteCertificate certID => c.DeleteCertificate certID
  | .createTransfer certID tsx => (c.CreateTransfer certID tsx).1
  | .acceptTransfer certID => (c.AcceptTransfer certID).1

/-- The registry after a sequence of steps, first step first. -/
def CertificateModel.run (c : CertificateModel) (ops : List Op) : CertificateModel :=
  ops.foldl CertificateModel.step c

/-- Along `ops`, started in `c`: the caller writes to a record that is stored only a record
whose `ID` is derived from its `Title`, and hands to `UpdateCertificate` only a record of
which that holds. -/
def CertificateModel.KeepsDerivedIDs : CertificateModel → List Op → Prop
  | _, [] => True
  | c, op :: rest =>
    (match op with
      | .write cert value =>
        cert ∈ c.store.entries.map Sigma.snd →
          value.ID = GenerateIDFromString value.Title
      | .updateCertificate cert =>
        (c.heap cert).ID = GenerateIDFromString (c.heap cert).Title
      | _ => True) ∧
    CertificateModel.KeepsDerivedIDs (c.step op) rest

/-- Along `ops`, started in `c`: the caller writes only to records that are not stored (it
builds the records it is about to pass). -/
def CertificateModel.OnlyNewRecordsWritten : CertificateModel → List Op → Prop
  | _, [] => True
  | c, op :: rest =>
    (match op with
      | .write cert _ => cert ∉ c.store.entries.map Sigma.snd
      | _ => True) ∧
    CertificateModel.OnlyNewRecordsWritten (c.step op) rest

/-! ## Concrete records used in the worked examples -/

/-- The fixture of `certificate_test.go`. -/
def certBlah : Certificate :=
  { ID := "", Title := "Blah", CreatedAt := 0, OwnerID := "ab12", Year := 0, Note := "",
    Transfer := { Email := "", Status := "" } }

/-- A registry holding, at address 0 and under the key `"c1"`, `certBlah` with a pending
transfer. -/
def pendingRegistry (um : UserModel) : CertificateModel :=
  { heap := Function.update zeroHeap 0
      { certBlah with ID := "c1", Transfer := { Email := "bob@table.com", Status := Pending } },
    store := AList.singleton "c1" 0,
    userModel := um }

/-- Two distinct e-mail addresses with the same MD5 digest. -/
def collidingEmailA : String :=
  "TEXTCOLLBYfGiJUETHQ4hAcKSMd5zYpgqf1YRDhkmxHkhPWptrkoyz28wnI9V0aHeAuaKnak"

/-- See `collidingEmailA`. -/
def collidingEmailB : String :=
  "TEXTCOLLBYfGiJUETHQ4hEcKSMd5zYpgqf1YRDhkmxHkhPWptrkoyz28wnI9V0aHeAuaKnak"

/-- The registry reached from the empty one by creating a user with e-mail
`collidingEmailA`, creating `certBlah`, and opening a transfer of it to `collidingEmailB`. -/
def collisionRegistry : CertificateModel :=
  (NewCertificateModel NewUserModel).run
    [.createUser { ID := "", Email := collidingEmailA, Name := "A" },
     .write 0 certBlah,
     .createCertificate 0,
     .createTransfer (GenerateIDFromString "Blah") { Email := collidingEmailB, Status := Pending }]

/-- The registry after `CreateCertificate` of the fixture (address 0) and
`UpdateCertificate` of a record (address 1) with the stored id and the title `"Other"`:
address 1 is stored under the id of `"Blah"`. -/
def updatedRegistry : CertificateModel :=
  (NewCertificateModel NewUserModel).run
    [.write 0 certBlah,
     .createCertificate 0,
     .write 1 { certBlah with ID := GenerateIDFromString "Blah", Title := "Other" },
     .updateCertificate 1]

/-- The registry after `CreateCertificate`, in `updatedRegistry`, with the pointer just
passed to `UpdateCertificate`: address 1 is stored under the ids of `"Blah"` and of
`"Other"`. -/
def aliasedRegistry : CertificateModel :=
  (updatedRegistry.CreateCertificate 1).1

/-- A user directory holding one user, the recipient of the transfer in `pendingRegistry`. -/
def bobDirectory : UserModel :=
  (NewUserModel.CreateUser { ID := "", Email := "bob@table.com", Name := "Bob" }).1

/-- The record of Bob in `bobDirectory`. -/
def bob : User :=
  { ID := GenerateIDFromString "bob@table.com", Email := "bob@table.com", Name := "Bob" }

/-- A registry holding, at address 0 and under the key `"c1"`, `certBlah` as
`CreateCertificate` leaves the transfer: the zero value. -/
def idleRegistry : CertificateModel :=
  { heap := Function.update zeroHeap 0 { certBlah with ID := "c1" },
    store := AList.singleton "c1" 0,
    userModel := NewUserModel }

/-- The fixture of `user_test.go`. -/
def testUser : User :=
  { ID := "", Email := "test.user@verisart.com", Name := "Test User" }

/-- The two maps of a user directory describe the same users: a record stored under `k` has
`ID = k`, `k` is the id derived from its e-mail, and the e-mail map sends its e-mail to it;
a record the e-mail map holds at `e` has `Email = e` and is stored in the id map under its
`ID`. -/
def UserModel.Indexed (d : UserModel) : Prop :=
  (∀ k u, d.store.lookup k = some u →
      u.ID = k ∧ k = GenerateIDFromString u.Email ∧ d.emailIndex.lookup u.Email = some u) ∧
  (∀ e u, d.emailIndex.lookup e = some u → u.Email = e ∧ d.store.lookup u.ID = some u)

/-! ## Properties -/

/-! ### The digest on known inputs -/

set_option maxRecDepth 100000 in
/-- The embedding of MD5 agrees with the reference digests of the empty string and of
`"abc"` (RFC 1321, appendix A.5) and with `md5sum` on the fixture of `utils_test.go`. -/
theorem generateID_known_digests :
    GenerateIDFromString "" = "d41d8cd98f00b204e9800998ecf8427e" ∧
    GenerateIDFromString "abc" = "900150983cd24fb0d6963f7d28e17f72" ∧
    GenerateIDFromString "A dummy string" = "8ea703f8020a57559b47369ccc3c1403" := by
  decide

set_option maxRecDepth 100000 in
/-- The two colliding addresses differ and have the same identifier. -/
theorem colliding_emails :
    collidingEmailA ≠ collidingEmailB ∧
    GenerateIDFromString collidingEmailA = "faad49866e9498fc1719f5289e7a0269" ∧
    GenerateIDFromString collidingEmailB = "faad49866e9498fc1719f5289e7a0269" := by
  decide

/-! ### Results of the operations, case by case -/

theorem record_eq_some (c : CertificateModel) (certID : String) (cert : Certificate) :
    c.record certID = some cert ↔ ∃ p, c.store.lookup certID = some p ∧ c.heap p = cert := by
  simp [CertificateModel.record]

theorem record_eq_none (c : CertificateModel) (certID : String) :
    c.record certID = none ↔ c.store.lookup certID = none := by
  simp [CertificateModel.record]

theorem createCertificate_free (c : CertificateModel) (cert : Ptr)
    (h : c.store.lookup (GenerateIDFromString (c.heap cert).Title) = none) :
    c.CreateCertificate cert
      = ({ heap := Function.update c.heap cert
                     { c.heap cert with ID := GenerateIDFromString (c.heap cert).Title },
           store := c.store.insert (GenerateIDFromString (c.heap cert).Title) cert,
           userModel := c.userModel }, none) := by
  simp [CertificateModel.CreateCertificate, h]

theorem createCertificate_taken (c : CertificateModel) (cert old : Ptr)
    (h : c.store.lookup (GenerateIDFromString (c.heap cert).Title) = some old) :
    c.CreateCertificate cert = (c, some "Certificate already exists") := by
  simp [CertificateModel.CreateCertificate, h]

theorem createCertificate_ok_iff (c : CertificateModel) (cert : Ptr) :
    (c.CreateCertificate cert).2 = none
      ↔ c.store.lookup (GenerateIDFromString (c.heap cert).Title) = none := by
  cases h : c.store.lookup (GenerateIDFromString (c.heap cert).Title) with
  | none => simp [createCertificate_free c cert h]
  | some old => simp [createCertificate_taken c cert old h]

theorem acceptTransfer_missing (c : CertificateModel) (certID : String)
    (h : c.store.lookup certID = none) :
    c.AcceptTransfer certID = (c, some "Certificate not found") := by
  simp [CertificateModel.AcceptTransfer, h]

theorem acceptTransfer_not_pending (c : CertificateModel) (certID : String) (p : Ptr)
    (h : c.store.lookup certID = some p) (hst : (c.heap p).Transfer.Status ≠ Pending) :
    c.AcceptTransfer certID
      = (c, some "No transfer has been initiated for this certificate") := by
  simp [CertificateModel.AcceptTransfer, h, hst]

/-- The successful branch of `AcceptTransfer`: the record behind the pointer stored under
`certID` gets some owner id and the reset transfer, whatever the user lookup and the user
creation did; the map from ids to pointers is not written. -/
theorem acceptTransfer_pending (c : CertificateModel) (certID : String) (p : Ptr)
    (h : c.store.lookup certID = some p) (hst : (c.heap p).Transfer.Status = Pending) :
    ∃ (d : UserModel) (owner : User),
      c.AcceptTransfer certID
        = ({ heap := Function.update c.heap p
                       { c.heap p with OwnerID := owner.ID,
                                       Transfer := { Email := "", Status := None } },
             store := c.store, userModel := d }, none) := by
  cases hu : c.userModel.GetUserByEmail (c.heap p).Transfer.Email with
  | ok owner =>
    exact ⟨c.userModel, owner, by simp [CertificateModel.AcceptTransfer, h, hst, hu]⟩
  | error msg =>
    exact ⟨(c.userModel.CreateUser
        { ID := "", Name := (c.heap p).Transfer.Email, Email := (c.heap p).Transfer.Email }).1,
      (c.userModel.CreateUser
        { ID := "", Name := (c.heap p).Transfer.Email, Email := (c.heap p).Transfer.Email }).2.1,
      by simp [CertificateModel.AcceptTransfer, h, hst, hu]⟩

/-- `AcceptTransfer` returns `nil` exactly on a stored certificate whose transfer is
pending. -/
theorem acceptTransfer_ok_iff (c : CertificateModel) (certID : String) :
    (c.AcceptTransfer certID).2 = none
      ↔ ∃ cert, c.record certID = some cert ∧ cert.Transfer.Status = Pending := by
  cases h : c.store.lookup certID with
  | none => simp [acceptTransfer_missing c certID h, CertificateModel.record, h]
  | some p =>
    by_cases hst : (c.heap p).Transfer.Status = Pending
    · obtain ⟨d, owner, heq⟩ := acceptTransfer_pending c certID p h hst
      simp [heq, hst, CertificateModel.record, h]
    · simp [acceptTransfer_not_pending c certID p h hst, hst, CertificateModel.record, h]

/-- The user directory after a successful `AcceptTransfer`: the one before, or the result
of one `CreateUser` for an e-mail the e-mail map did not hold. -/
theorem acceptTransfer_directory (c : CertificateModel) (certID : String) (p : Ptr)
    (h : c.store.lookup certID = some p) (hst : (c.heap p).Transfer.Status = Pending) :
    (c.AcceptTransfer certID).1.userModel = c.userModel ∨
    ∃ x : User, c.userModel.emailIndex.lookup x.Email = none ∧
      (c.AcceptTransfer certID).1.userModel = (c.userModel.CreateUser x).1 := by
  cases hl : c.userModel.emailIndex.lookup (c.heap p).Transfer.Email with
  | some owner =>
    left
    simp [CertificateModel.AcceptTransfer, h, hst, UserModel.GetUserByEmail, hl]
  | none =>
    right
    exact ⟨{ ID := "", Name := (c.heap p).Transfer.Email,
             Email := (c.heap p).Transfer.Email }, hl, by
      simp [CertificateModel.AcceptTransfer, h, hst, UserModel.GetUserByEmail, hl]⟩

theorem createTransfer_missing (c : CertificateModel) (certID : String) (tsx : Transfer)
    (h : c.store.lookup certID = none) :
    c.CreateTransfer certID tsx
      = (c, some "Certificate does not exists and thus cannot be transfered") := by
  simp [CertificateModel.CreateTransfer, h]

theorem createTransfer_stored (c : CertificateModel) (certID : String) (tsx : Transfer)
    (p : Ptr) (h : c.store.lookup certID = some p) :
    c.CreateTransfer certID tsx
      = ({ c with heap := Function.update c.heap p { c.heap p with Transfer := tsx } },
         none) := by
  simp [CertificateModel.CreateTransfer, h]

theorem updateCertificate_missing (c : CertificateModel) (cert : Ptr)
    (h : c.store.lookup (c.heap cert).ID = none) :
    c.UpdateCertificate cert
      = (c, some ("No certificate found with ID " ++ (c.heap cert).ID)) := by
  simp [CertificateModel.UpdateCertificate, h]

theorem updateCertificate_stored (c : CertificateModel) (cert old : Ptr)
    (h : c.store.lookup (c.heap cert).ID = some old) :
    c.UpdateCertificate cert
      = ({ c with store := c.store.insert (c.heap cert).ID cert }, none) := by
  simp [CertificateModel.UpdateCertificate, h]

/-! ### The user directory, case by case -/

theorem createUser_free (u : UserModel) (user : User)
    (h : u.store.lookup (GenerateIDFromString user.Email) = none) :
    u.CreateUser user
      = ({ store := u.store.insert (GenerateIDFromString user.Email)
                      { user with ID := GenerateIDFromString user.Email },
           emailIndex := u.emailIndex.insert user.Email
                      { user with ID := GenerateIDFromString user.Email } },
         { user with ID := GenerateIDFromString user.Email }, none) := by
  simp [UserModel.CreateUser, h]

theorem createUser_taken (u : UserModel) (user old : User)
    (h : u.store.lookup (GenerateIDFromString user.Email) = some old) :
    u.CreateUser user = (u, user, some "User already exists") := by
  simp [UserModel.CreateUser, h]

/-- Erasing a key that is not in the map leaves the map as it is. -/
theorem erase_absent {α : Type} (m : GoMap α) (k : String) (h : m.lookup k = none) :
    m.erase k = m := by
  apply AList.ext
  have hk : k ∉ m.entries.keys := fun hmem => (AList.lookup_eq_none.1 h) (AList.mem_keys.2 hmem)
  simpa [AList.erase] using List.kerase_of_not_mem_keys hk

/-- What a step does to the map from ids to pointers: nothing, an insertion, or the
deletion of the id it names. -/
theorem step_store (c : CertificateModel) (op : Op) :
    (c.step op).store = c.store ∨
    (∃ k p, (c.step op).store = c.store.insert k p) ∨
    (∃ k, op = .deleteCertificate k ∧ (c.step op).store = c.store.erase k) := by
  cases op with
  | createUser user => exact Or.inl rfl
  | write cert value => exact Or.inl rfl
  | createCertificate cert =>
    cases h : c.store.lookup (GenerateIDFromString (c.heap cert).Title) with
    | none =>
      exact Or.inr (Or.inl ⟨GenerateIDFromString (c.heap cert).Title, cert, by
        simp only [CertificateModel.step, createCertificate_free c cert h]⟩)
    | some old =>
      exact Or.inl (by simp only [CertificateModel.step, createCertificate_taken c cert old h])
  | updateCertificate cert =>
    cases h : c.store.lookup (c.heap cert).ID with
    | none =>
      exact Or.inl (by simp only [CertificateModel.step, updateCertificate_missing c cert h])
    | some old =>
      exact Or.inr (Or.inl ⟨(c.heap cert).ID, cert, by
        simp only [CertificateModel.step, updateCertificate_stored c cert old h]⟩)
  | deleteCertificate certID => exact Or.inr (Or.inr ⟨certID, rfl, rfl⟩)
  | createTransfer certID tsx =>
    cases h : c.store.lookup certID with
    | none =>
      exact Or.inl (by simp only [CertificateModel.step, createTransfer_missing c certID tsx h])
    | some p =>
      exact Or.inl (by simp only [CertificateModel.step, createTransfer_stored c certID tsx p h])
  | acceptTransfer certID =>
    cases h : c.store.lookup certID with
    | none =>
      exact Or.inl (by simp only [CertificateModel.step, acceptTransfer_missing c certID h])
    | some p =>
      by_cases hst : (c.heap p).Transfer.Status = Pending
      · obtain ⟨d, owner, heq⟩ := acceptTransfer_pending c certID p h hst
        exact Or.inl (by simp only [CertificateModel.step, heq])
      · exact Or.inl (by
          simp only [CertificateModel.step, acceptTransfer_not_pending c certID p h hst])

/-- Presence of a key in the certificate store survives every step but its deletion. -/
theorem step_keeps_key (c : CertificateModel) (op : Op) (k : String)
    (hk : k ∈ c.store) (hop : op ≠ .deleteCertificate k) : k ∈ (c.step op).store := by
  rcases step_store c op with h | ⟨k0, p, h⟩ | ⟨k0, hdel, h⟩
  · rw [h]; exact hk
  · rw [h]; exact (AList.mem_insert _).2 (Or.inr hk)
  · rw [h]
    have hne : k ≠ k0 := fun e => hop (by rw [hdel, e])
    exact AList.mem_erase.2 ⟨hne, hk⟩

/-- See `step_keeps_key`: the same along a sequence of steps. -/
theorem run_keeps_key (ops : List Op) (k : String) :
    ∀ c : CertificateModel, k ∈ c.store → (∀ op ∈ ops, op ≠ .deleteCertificate k) →
      k ∈ (c.run ops).store := by
  induction ops with
  | nil => intro c hk _; exact hk
  | cons op rest ih =>
    intro c hk hops
    have h1 := step_keeps_key c op k hk (hops op (List.mem_cons_self _ _))
    exact ih (c.step op) h1 (fun o ho => hops o (List.mem_cons_of_mem _ ho))

/-- What one step does to the user directory: nothing, or what one `CreateUser` does. -/
theorem step_userModel (c : CertificateModel) (op : Op) :
    (c.step op).userModel = c.userModel
      ∨ ∃ x, (c.step op).userModel = (c.userModel.CreateUser x).1 := by
  cases op with
  | createUser user => exact Or.inr ⟨user, rfl⟩
  | write cert value => exact Or.inl rfl
  | createCertificate cert =>
    cases h : c.store.lookup (GenerateIDFromString (c.heap cert).Title) with
    | none => simp [CertificateModel.step, createCertificate_free c cert h]
    | some old => simp [CertificateModel.step, createCertificate_taken c cert old h]
  | updateCertificate cert =>
    cases h : c.store.lookup (c.heap cert).ID with
    | none => simp [CertificateModel.step, updateCertificate_missing c cert h]
    | some old => simp [CertificateModel.step, updateCertificate_stored c cert old h]
  | deleteCertificate certID => exact Or.inl rfl
  | createTransfer certID tsx =>
    cases h : c.store.lookup certID with
    | none => simp [CertificateModel.step, createTransfer_missing c certID tsx h]
    | some p => simp [CertificateModel.step, createTransfer_stored c certID tsx p h]
  | acceptTransfer certID =>
    cases h : c.store.lookup certID with
    | none => simp [CertificateModel.step, acceptTransfer_missing c certID h]
    | some p =>
      by_cases hst : (c.heap p).Transfer.Status = Pending
      · rcases acceptTransfer_directory c certID p h hst with hsame | ⟨x, _, hnew⟩
        · exact Or.inl hsame
        · exact Or.inr ⟨x, hnew⟩
      · simp [CertificateModel.step, acceptTransfer_not_pending c certID p h hst]

/-- A property of the user directory that every `CreateUser` keeps is kept along every
sequence of calls. -/
theorem run_userModel_invariant (P : UserModel → Prop)
    (hP : ∀ (d : UserModel) (x : User), P d → P (d.CreateUser x).1) (ops : List Op) :
    ∀ c : CertificateModel, P c.userModel → P (c.run ops).userModel := by
  induction ops with
  | nil => intro c h; exact h
  | cons op rest ih =>
    intro c h
    apply ih (c.step op)
    rcases step_userModel c op with heq | ⟨x, heq⟩
    · rw [heq]; exact h
    · rw [heq]; exact hP _ x h

/-- Once an id is taken and the e-mail map sends `E`, whose id it is, to `v`, no
`CreateUser` changes either fact. -/
theorem createUser_keeps_first (E : String) (v : User) (d : UserModel) (x : User)
    (h : d.store.lookup (GenerateIDFromString E) ≠ none ∧ d.emailIndex.lookup E = some v) :
    (d.CreateUser x).1.store.lookup (GenerateIDFromString E) ≠ none ∧
    (d.CreateUser x).1.emailIndex.lookup E = some v := by
  cases hx : d.store.lookup (GenerateIDFromString x.Email) with
  | some old =>
    rw [createUser_taken d x old hx]
    exact h
  | none =>
    rw [createUser_free d x hx]
    have hne : E ≠ x.Email := by
      intro e
      rw [e] at h
      exact h.1 hx
    refine ⟨?_, ?_⟩
    · intro hnone
      have hin : GenerateIDFromString E ∈ d.store := AList.lookup_isSome.1 (by
        cases hl : d.store.lookup (GenerateIDFromString E) with
        | none => exact absurd hl h.1
        | some w => rfl)
      exact (AList.lookup_eq_none.1 hnone) ((AList.mem_insert _).2 (Or.inr hin))
    · simpa [AList.lookup_insert_ne hne] using h.2

/-- The loop of `GetUsers`, entered with an allocated slice. -/
theorem usersLoop_some (es : List (Sigma fun _ : String => User)) :
    ∀ l : List User,
      es.foldl (fun (users : Slice User) e => users.append e.2) (some l)
        = some (l ++ es.map Sigma.snd) := by
  induction es with
  | nil => intro l; simp
  | cons e rest ih =>
    intro l
    rw [List.foldl_cons, show Slice.append (some l) e.2 = some (l ++ [e.2]) from rfl, ih]
    simp

/-- The result of `GetUsers`: the records of the id map, in the order of the map. -/
theorem getUsers_eq (d : UserModel) : d.GetUsers = some (d.store.entries.map Sigma.snd) := by
  simp only [UserModel.GetUsers]
  cases hes : d.store.entries with
  | nil => rfl
  | cons e rest =>
    rw [List.foldl_cons, show Slice.append none e.2 = some [e.2] from rfl, usersLoop_some]
    simp

/-! ### Shape of the identifiers -/

theorem leBytes_length (n x : Nat) : (leBytes n x).length = n := by
  simp [leBytes]

theorem leBytes_lt (n x : Nat) : ∀ b ∈ leBytes n x, b < 256 := by
  intro b hb
  simp only [leBytes, List.mem_map] at hb
  obtain ⟨j, _, rfl⟩ := hb
  exact Nat.mod_lt _ (by decide)

/-- The digest has 16 bytes. -/
theorem md5Sum_length (msg : List Nat) : (md5Sum msg).length = 16 := by
  simp [md5Sum, leBytes_length]

theorem md5Sum_lt (msg : List Nat) : ∀ b ∈ md5Sum msg, b < 256 := by
  intro b hb
  simp only [md5Sum, List.mem_append] at hb
  rcases hb with ((hb | hb) | hb) | hb <;> exact leBytes_lt _ _ b hb

theorem hexDigit_mem : ∀ n, n < 16 → hexDigit n ∈ "0123456789abcdef".data := by
  decide

theorem hexDigit_utf8Size : ∀ n, n < 16 → (hexDigit n).utf8Size = 1 := by
  decide

theorem hexBytes_length (bs : List Nat) : (hexBytes bs).length = 2 * bs.length := by
  induction bs with
  | nil => rfl
  | cons b rest ih =>
    simp only [hexBytes, String.length, List.flatMap_cons, List.length_append, List.length_cons,
      List.length_nil] at ih ⊢
    omega

theorem hexBytes_digits (bs : List Nat) (hbs : ∀ b ∈ bs, b < 256) :
    ∀ ch ∈ (hexBytes bs).data, ch ∈ "0123456789abcdef".data := by
  intro ch hch
  simp only [hexBytes, List.mem_flatMap, List.mem_cons, List.mem_singleton] at hch
  obtain ⟨b, hb, hch⟩ := hch
  have hlt := hbs b hb
  rcases hch with rfl | rfl | hfalse
  · exact hexDigit_mem _ (by omega)
  · exact hexDigit_mem _ (Nat.mod_lt _ (by decide))
  · exact absurd hfalse (List.not_mem_nil _)

theorem utf8ByteSize_ascii (cs : List Char) (h : ∀ ch ∈ cs, ch.utf8Size = 1) :
    (String.mk cs).utf8ByteSize = cs.length := by
  induction cs with
  | nil => rfl
  | cons ch rest ih =>
    have h1 := h ch (List.mem_cons_self _ _)
    have h2 := ih (fun x hx => h x (List.mem_cons_of_mem _ hx))
    simp only [String.utf8ByteSize, String.utf8ByteSize.go, List.length_cons] at h2 ⊢
    omega

theorem hexBytes_utf8ByteSize (bs : List Nat) (hbs : ∀ b ∈ bs, b < 256) :
    (hexBytes bs).utf8ByteSize = 2 * bs.length := by
  have hlen := hexBytes_length bs
  have hsize : ∀ ch ∈ (hexBytes bs).data, ch.utf8Size = 1 := by
    intro ch hch
    simp only [hexBytes, List.mem_flatMap, List.mem_cons, List.mem_singleton] at hch
    obtain ⟨b, hb, hch⟩ := hch
    have hlt := hbs b hb
    rcases hch with rfl | rfl | hfalse
    · exact hexDigit_utf8Size _ (by omega)
    · exact hexDigit_utf8Size _ (Nat.mod_lt _ (by decide))
    · exact absurd hfalse (List.not_mem_nil _)
  have := utf8ByteSize_ascii (hexBytes bs).data hsize
  simp only [String.length] at hlen
  rw [← hlen, ← this]

/-! ### Invariants of the user directory -/

/-- What a lookup finds after an insertion. -/
theorem lookup_insert_cases {α : Type} (m : GoMap α) (k k0 : String) (v v0 : α)
    (h : (m.insert k0 v0).lookup k = some v) :
    (k = k0 ∧ v = v0) ∨ (k ≠ k0 ∧ m.lookup k = some v) := by
  by_cases hk : k = k0
  · subst hk
    rw [AList.lookup_insert] at h
    exact Or.inl ⟨rfl, (Option.some.inj h).symm⟩
  · rw [AList.lookup_insert_ne hk] at h
    exact Or.inr ⟨hk, h⟩

theorem newUserModel_indexed : NewUserModel.Indexed := by
  refine ⟨?_, ?_⟩
  · intro k u h
    simp [NewUserModel] at h
  · intro e u h
    simp [NewUserModel] at h

/-- `CreateUser` keeps the two maps in step, whether it stores the user or refuses it. -/
theorem createUser_keeps_indexed (d : UserModel) (x : User) (h : d.Indexed) :
    (d.CreateUser x).1.Indexed := by
  cases hx : d.store.lookup (GenerateIDFromString x.Email) with
  | some old =>
    rw [createUser_taken d x old hx]
    exact h
  | none =>
    rw [createUser_free d x hx]
    obtain ⟨h1, h2⟩ := h
    refine ⟨?_, ?_⟩
    · intro k u hk
      rcases lookup_insert_cases _ _ _ _ _ hk with ⟨rfl, rfl⟩ | ⟨hne, hold⟩
      · exact ⟨rfl, rfl, AList.lookup_insert _⟩
      · obtain ⟨hid, hgen, hem⟩ := h1 k u hold
        refine ⟨hid, hgen, ?_⟩
        have hne2 : u.Email ≠ x.Email := by
          intro e
          apply hne
          rw [hgen, e]
        show AList.lookup u.Email (AList.insert x.Email _ d.emailIndex) = some u
        rw [AList.lookup_insert_ne hne2]
        exact hem
    · intro e u he
      rcases lookup_insert_cases _ _ _ _ _ he with ⟨rfl, rfl⟩ | ⟨hne, hold⟩
      · exact ⟨rfl, AList.lookup_insert _⟩
      · obtain ⟨hem, hst⟩ := h2 e u hold
        refine ⟨hem, ?_⟩
        have hne2 : u.ID ≠ GenerateIDFromString x.Email := by
          intro e2
          rw [e2, hx] at hst
          exact Option.noConfusion hst
        show AList.lookup u.ID (AList.insert (GenerateIDFromString x.Email) _ d.store) = some u
        rw [AList.lookup_insert_ne hne2]
        exact hst

/-- Every directory reached from the empty one has its two maps in step. -/
theorem reachable_indexed (ops : List Op) :
    ((NewCertificateModel NewUserModel).run ops).userModel.Indexed :=
  run_userModel_invariant UserModel.Indexed createUser_keeps_indexed ops _ newUserModel_indexed

/-- What `CreateUser` leaves in place when the e-mail map has no entry for the new user's
e-mail: every entry of both maps, with at most one key added to the id map. -/
theorem createUser_frame (d : UserModel) (x : User)
    (hemail : d.emailIndex.lookup x.Email = none) :
    (∀ k u, d.store.lookup k = some u → (d.CreateUser x).1.store.lookup k = some u) ∧
    (∀ e u, d.emailIndex.lookup e = some u →
      (d.CreateUser x).1.emailIndex.lookup e = some u) ∧
    (∀ k, k ∈ (d.CreateUser x).1.store → k ∈ d.store ∨ k = GenerateIDFromString x.Email) ∧
    (d.CreateUser x).1.store.keys.length ≤ d.store.keys.length + 1 := by
  cases hx : d.store.lookup (GenerateIDFromString x.Email) with
  | some old =>
    rw [createUser_taken d x old hx]
    exact ⟨fun _ _ h => h, fun _ _ h => h, fun _ h => Or.inl h, Nat.le_succ _⟩
  | none =>
    rw [createUser_free d x hx]
    refine ⟨?_, ?_, ?_, ?_⟩
    · intro k u hk
      have hne : k ≠ GenerateIDFromString x.Email := by
        intro e
        rw [e, hx] at hk
        exact Option.noConfusion hk
      show AList.lookup k (AList.insert (GenerateIDFromString x.Email) _ d.store) = some u
      rw [AList.lookup_insert_ne hne]
      exact hk
    · intro e u he
      have hne : e ≠ x.Email := by
        intro e2
        rw [e2, hemail] at he
        exact Option.noConfusion he
      show AList.lookup e (AList.insert x.Email _ d.emailIndex) = some u
      rw [AList.lookup_insert_ne hne]
      exact he
    · intro k hk
      rcases (AList.mem_insert _).1 hk with h | h
      · exact Or.inr h
      · exact Or.inl h
    · have hnot : GenerateIDFromString x.Email ∉ d.store.keys := fun hm =>
        (AList.lookup_eq_none.1 hx) (AList.mem_keys.2 hm)
      show (AList.insert (GenerateIDFromString x.Email) _ d.store).keys.length
        ≤ d.store.keys.length + 1
      rw [AList.keys_insert, List.erase_of_not_mem hnot]
      simp

/-! ### The claims -/

/-- C1 (as amended): when `certID` is stored with a pending transfer to `e`, the e-mail
index has no entry for `e` and the id map has no entry under `GenerateIDFromString e`,
`AcceptTransfer` returns no error; afterwards `GetUserByEmail e` returns the user with
`Name = e`, `Email = e`, `ID = GenerateIDFromString e`, the certificate is owned by that
user and its transfer is `{Email: "", Status: None}`. -/
theorem C1_acceptTransfer_creates_user (c : CertificateModel) (certID e : String)
    (cert : Certificate)
    (hcert : c.record certID = some cert)
    (hpending : cert.Transfer = { Email := e, Status := Pending })
    (hemail : c.userModel.emailIndex.lookup e = none)
    (hid : c.userModel.store.lookup (GenerateIDFromString e) = none) :
    (c.AcceptTransfer certID).2 = none ∧
    (c.AcceptTransfer certID).1.userModel.GetUserByEmail e
      = .ok { ID := GenerateIDFromString e, Email := e, Name := e } ∧
    (c.AcceptTransfer certID).1.readCertificateByID certID
      = .ok { cert with OwnerID := GenerateIDFromString e,
                        Transfer := { Email := "", Status := None } } := by
  obtain ⟨p, hp, rfl⟩ := (record_eq_some c certID cert).1 hcert
  have hst : (c.heap p).Transfer.Status = Pending := by rw [hpending]
  have hem : (c.heap p).Transfer.Email = e := by rw [hpending]
  subst hem
  simp [CertificateModel.AcceptTransfer, hp, hst, UserModel.GetUserByEmail, hemail,
    UserModel.CreateUser, hid, CertificateModel.readCertificateByID,
    CertificateModel.GetCertificateByID, Except.map, AList.lookup_insert]

/-- C1, worked example: accepting the pending transfer of `pendingRegistry` over an empty
user directory creates the recipient and hands the certificate over. -/
theorem C1_acceptTransfer_creates_user_witness :
    (pendingRegistry NewUserModel).record "c1"
      = some { certBlah with ID := "c1",
                             Transfer := { Email := "bob@table.com", Status := Pending } } ∧
    ((pendingRegistry NewUserModel).AcceptTransfer "c1").2 = none ∧
    ((pendingRegistry NewUserModel).AcceptTransfer "c1").1.userModel.GetUserByEmail "bob@table.com"
      = .ok { ID := GenerateIDFromString "bob@table.com", Email := "bob@table.com",
              Name := "bob@table.com" } ∧
    ((pendingRegistry NewUserModel).AcceptTransfer "c1").1.readCertificateByID "c1"
      = .ok { certBlah with ID := "c1", OwnerID := GenerateIDFromString "bob@table.com",
                            Transfer := { Email := "", Status := None } } :=
  ⟨by decide,
   C1_acceptTransfer_creates_user (pendingRegistry NewUserModel) "c1" "bob@table.com"
     { certBlah with ID := "c1", Transfer := { Email := "bob@table.com", Status := Pending } }
     (by decide) rfl rfl rfl⟩

set_option maxRecDepth 100000 in
/-- C1 as stated fails: in `collisionRegistry` the certificate has a pending transfer to
`collidingEmailB` and no stored user has that e-mail, yet after `AcceptTransfer` no user
can be found by that e-mail (the id derived from it is already taken, so `CreateUser`
stores nothing). -/
theorem C1_counterexample :
    ¬ ∀ (c : CertificateModel) (certID e : String) (cert : Certificate),
      c.record certID = some cert →
      cert.Transfer = { Email := e, Status := Pending } →
      (c.userModel.emailIndex.lookup e = none ∧
        (∀ en ∈ c.userModel.store.entries, en.2.Email ≠ e) ∧
        (∀ en ∈ c.userModel.emailIndex.entries, en.2.Email ≠ e)) →
      (c.AcceptTransfer certID).2 = none ∧
      (c.AcceptTransfer certID).1.userModel.GetUserByEmail e
        = .ok { ID := GenerateIDFromString e, Email := e, Name := e } ∧
      (c.AcceptTransfer certID).1.readCertificateByID certID
        = .ok { cert with OwnerID := GenerateIDFromString e,
                          Transfer := { Email := "", Status := None } } := by
  intro h
  have h1 := h collisionRegistry (GenerateIDFromString "Blah") collidingEmailB
    { certBlah with ID := GenerateIDFromString "Blah",
                    Transfer := { Email := collidingEmailB, Status := Pending } }
    (by decide) rfl (by decide)
  exact absurd h1.2.1 (by decide)

/-- C2: when `certID` is stored with a pending transfer to `e` and `GetUserByEmail e` finds
a user `u`, `AcceptTransfer` returns no error, leaves the id map and the e-mail map of the
user directory as they were, makes `u.ID` the owner and resets the transfer to
`{Email: "", Status: None}`. -/
theorem C2_acceptTransfer_existing_user (c : CertificateModel) (certID e : String)
    (cert : Certificate) (u : User)
    (hcert : c.record certID = some cert)
    (hpending : cert.Transfer = { Email := e, Status := Pending })
    (huser : c.userModel.GetUserByEmail e = .ok u) :
    (c.AcceptTransfer certID).2 = none ∧
    (c.AcceptTransfer certID).1.userModel.store = c.userModel.store ∧
    (c.AcceptTransfer certID).1.userModel.emailIndex = c.userModel.emailIndex ∧
    (c.AcceptTransfer certID).1.readCertificateByID certID
      = .ok { cert with OwnerID := u.ID, Transfer := { Email := "", Status := None } } := by
  obtain ⟨p, hp, rfl⟩ := (record_eq_some c certID cert).1 hcert
  have hst : (c.heap p).Transfer.Status = Pending := by rw [hpending]
  have hem : (c.heap p).Transfer.Email = e := by rw [hpending]
  subst hem
  simp [CertificateModel.AcceptTransfer, hp, hst, huser,
    CertificateModel.readCertificateByID, CertificateModel.GetCertificateByID, Except.map]

set_option maxRecDepth 100000 in
/-- C2, worked example: Bob is already registered when the transfer to him is accepted. -/
theorem C2_acceptTransfer_existing_user_witness :
    bobDirectory.GetUserByEmail "bob@table.com" = .ok bob ∧
    ((pendingRegistry bobDirectory).AcceptTransfer "c1").2 = none ∧
    ((pendingRegistry bobDirectory).AcceptTransfer "c1").1.userModel.store = bobDirectory.store ∧
    ((pendingRegistry bobDirectory).AcceptTransfer "c1").1.userModel.emailIndex
      = bobDirectory.emailIndex ∧
    ((pendingRegistry bobDirectory).AcceptTransfer "c1").1.readCertificateByID "c1"
      = .ok { certBlah with ID := "c1", OwnerID := bob.ID,
                            Transfer := { Email := "", Status := None } } :=
  ⟨by decide,
   C2_acceptTransfer_existing_user (pendingRegistry bobDirectory) "c1" "bob@table.com"
     { certBlah with ID := "c1", Transfer := { Email := "bob@table.com", Status := Pending } }
     bob (by decide) rfl (by decide)⟩

/-- C3: `AcceptTransfer` returns an error and leaves the registry and the user directory
exactly as they were when no certificate is stored under `certID`, and when the one stored
has a transfer status other than `Pending`; the latter covers a certificate just created
with the zero-value transfer. -/
theorem C3_acceptTransfer_errors (c : CertificateModel) (certID : String) :
    (c.store.lookup certID = none →
      (c.AcceptTransfer certID).2 ≠ none ∧ (c.AcceptTransfer certID).1 = c) ∧
    (∀ cert, c.record certID = some cert → cert.Transfer.Status ≠ Pending →
      (c.AcceptTransfer certID).2 ≠ none ∧ (c.AcceptTransfer certID).1 = c) ∧
    (∀ cert : Ptr, (c.heap cert).Transfer = { Email := "", Status := "" } →
      (c.CreateCertificate cert).2 = none →
      ((c.CreateCertificate cert).1.AcceptTransfer
          ((c.CreateCertificate cert).1.heap cert).ID).2 ≠ none ∧
      ((c.CreateCertificate cert).1.AcceptTransfer
          ((c.CreateCertificate cert).1.heap cert).ID).1
        = (c.CreateCertificate cert).1) := by
  refine ⟨?_, ?_, ?_⟩
  · intro h
    simp [acceptTransfer_missing c certID h]
  · intro cert h hst
    obtain ⟨p, hp, rfl⟩ := (record_eq_some c certID cert).1 h
    simp [acceptTransfer_not_pending c certID p hp hst]
  · intro cert htsx hok
    have hfree := (createCertificate_ok_iff c cert).1 hok
    rw [createCertificate_free c cert hfree]
    simp only [Function.update_same]
    have hlook : (CertificateModel.mk
          (Function.update c.heap cert
            { c.heap cert with ID := GenerateIDFromString (c.heap cert).Title })
          (c.store.insert (GenerateIDFromString (c.heap cert).Title) cert)
          c.userModel).store.lookup (GenerateIDFromString (c.heap cert).Title)
        = some cert := AList.lookup_insert _
    have hst : ((CertificateModel.mk
          (Function.update c.heap cert
            { c.heap cert with ID := GenerateIDFromString (c.heap cert).Title })
          (c.store.insert (GenerateIDFromString (c.heap cert).Title) cert)
          c.userModel).heap cert).Transfer.Status ≠ Pending := by
      simp only [Function.update_same, htsx]
      decide
    simp [acceptTransfer_not_pending _ _ cert hlook hst]

/-- C3, worked example: an unknown id, and `idleRegistry`, whose certificate has no
transfer. -/
theorem C3_acceptTransfer_errors_witness :
    idleRegistry.store.lookup "sadasd" = none ∧
    (idleRegistry.AcceptTransfer "sadasd").2 ≠ none ∧
    (idleRegistry.AcceptTransfer "sadasd").1 = idleRegistry ∧
    idleRegistry.record "c1" = some { certBlah with ID := "c1" } ∧
    (idleRegistry.AcceptTransfer "c1").2 ≠ none ∧
    (idleRegistry.AcceptTransfer "c1").1 = idleRegistry :=
  ⟨by decide,
   ((C3_acceptTransfer_errors idleRegistry "sadasd").1 (by decide)).1,
   ((C3_acceptTransfer_errors idleRegistry "sadasd").1 (by decide)).2,
   by decide,
   ((C3_acceptTransfer_errors idleRegistry "c1").2.1 { certBlah with ID := "c1" }
     (by decide) (by decide)).1,
   ((C3_acceptTransfer_errors idleRegistry "c1").2.1 { certBlah with ID := "c1" }
     (by decide) (by decide)).2⟩

/-- C4 (as amended): `CreateTransfer` returns an error and changes nothing when no
certificate is stored under `certID`; otherwise it returns no error, the stored certificate
keeps its `ID`, `Title`, `CreatedAt`, `OwnerID`, `Year` and `Note` and gets `tsx` as its
transfer whatever the previous one was, and the map from ids to pointers, every other
record, hence the certificate under every id that holds another pointer, and the user
directory are unchanged. An id that holds the same pointer shows the same record. -/
theorem C4_createTransfer (c : CertificateModel) (certID : String) (tsx : Transfer) :
    (c.store.lookup certID = none →
      (c.CreateTransfer certID tsx).2 ≠ none ∧ (c.CreateTransfer certID tsx).1 = c) ∧
    (∀ p, c.store.lookup certID = some p →
      (c.CreateTransfer certID tsx).2 = none ∧
      (c.CreateTransfer certID tsx).1.record certID
        = some { ID := (c.heap p).ID, Title := (c.heap p).Title,
                 CreatedAt := (c.heap p).CreatedAt, OwnerID := (c.heap p).OwnerID,
                 Year := (c.heap p).Year, Note := (c.heap p).Note, Transfer := tsx } ∧
      (c.CreateTransfer certID tsx).1.store = c.store ∧
      (∀ q, q ≠ p → (c.CreateTransfer certID tsx).1.heap q = c.heap q) ∧
      (∀ k q, c.store.lookup k = some q → q ≠ p →
        (c.CreateTransfer certID tsx).1.record k = c.record k) ∧
      (∀ k, c.store.lookup k = some p →
        (c.CreateTransfer certID tsx).1.record k
          = (c.CreateTransfer certID tsx).1.record certID) ∧
      (c.CreateTransfer certID tsx).1.userModel = c.userModel) := by
  refine ⟨?_, ?_⟩
  · intro h
    simp [createTransfer_missing c certID tsx h]
  · intro p h
    rw [createTransfer_stored c certID tsx p h]
    refine ⟨rfl, ?_, rfl, ?_, ?_, ?_, rfl⟩
    · simp [CertificateModel.record, h]
    · intro q hq
      exact Function.update_noteq hq _ _
    · intro k q hk hq
      simp [CertificateModel.record, hk, Function.update_noteq hq]
    · intro k hk
      simp [CertificateModel.record, hk, h]

/-- C4, worked example: a transfer opened on `pendingRegistry` replaces the pending one, and
one opened on an unknown id is refused. -/
theorem C4_createTransfer_witness :
    ((pendingRegistry NewUserModel).CreateTransfer "abasad" { Email := "", Status := "" }).2
      ≠ none ∧
    ((pendingRegistry NewUserModel).CreateTransfer "c1"
        { Email := "eve@table.com", Status := Pending }).2 = none ∧
    ((pendingRegistry NewUserModel).CreateTransfer "c1"
        { Email := "eve@table.com", Status := Pending }).1.record "c1"
      = some { certBlah with ID := "c1",
                             Transfer := { Email := "eve@table.com", Status := Pending } } :=
  ⟨((C4_createTransfer (pendingRegistry NewUserModel) "abasad" _).1 (by decide)).1,
   ((C4_createTransfer (pendingRegistry NewUserModel) "c1" _).2 0 (by decide)).1,
   ((C4_createTransfer (pendingRegistry NewUserModel) "c1" _).2 0 (by decide)).2.1⟩

set_option maxRecDepth 100000 in
/-- C4 as stated fails: in `aliasedRegistry` one record is stored under the ids of `"Blah"`
and of `"Other"`, and `CreateTransfer` on the first id changes the certificate read under
the second. -/
theorem C4_counterexample :
    ¬ ∀ (c : CertificateModel) (certID : String) (tsx : Transfer) (cert : Certificate),
      c.record certID = some cert →
      (c.CreateTransfer certID tsx).2 = none ∧
      (c.CreateTransfer certID tsx).1.record certID = some { cert with Transfer := tsx } ∧
      (∀ k, k ≠ certID → (c.CreateTransfer certID tsx).1.record k = c.record k) ∧
      (c.CreateTransfer certID tsx).1.userModel = c.userModel := by
  intro h
  have h1 := (h aliasedRegistry (GenerateIDFromString "Blah")
    { Email := "bob@table.com", Status := Pending }
    { certBlah with ID := GenerateIDFromString "Other", Title := "Other" }
    (by decide)).2.2.1 (GenerateIDFromString "Other") (by decide)
  exact absurd h1 (by decide)

/-- C5 (as amended): when no certificate is stored under the id derived from the title of
`cert`, `CreateCertificate cert` returns no error and sets `cert.ID` to that id, leaving
the other fields of `cert` alone; afterwards `GetCertificateByID` of that id returns no
error and yields the certificate with its `Title`, `OwnerID`, `Year`, `Note`, `CreatedAt`
and `Transfer` and the id set; every id stored before still holds its pointer, every record
but `cert` is unchanged, and so is every certificate stored before through a pointer other
than `cert`. -/
theorem C5_createCertificate (c : CertificateModel) (cert : Ptr)
    (hfree : c.store.lookup (GenerateIDFromString (c.heap cert).Title) = none) :
    (c.CreateCertificate cert).2 = none ∧
    (c.CreateCertificate cert).1.heap cert
      = { c.heap cert with ID := GenerateIDFromString (c.heap cert).Title } ∧
    (c.CreateCertificate cert).1.readCertificateByID (GenerateIDFromString (c.heap cert).Title)
      = .ok { ID := GenerateIDFromString (c.heap cert).Title, Title := (c.heap cert).Title,
              CreatedAt := (c.heap cert).CreatedAt, OwnerID := (c.heap cert).OwnerID,
              Year := (c.heap cert).Year, Note := (c.heap cert).Note,
              Transfer := (c.heap cert).Transfer } ∧
    (∀ k p, c.store.lookup k = some p → (c.CreateCertificate cert).1.store.lookup k = some p) ∧
    (∀ q, q ≠ cert → (c.CreateCertificate cert).1.heap q = c.heap q) ∧
    (∀ k old, c.record k = some old → c.store.lookup k ≠ some cert →
      (c.CreateCertificate cert).1.record k = some old) := by
  rw [createCertificate_free c cert hfree]
  have hkeep : ∀ k p, c.store.lookup k = some p →
      (c.store.insert (GenerateIDFromString (c.heap cert).Title) cert).lookup k = some p := by
    intro k p hk
    have hne : k ≠ GenerateIDFromString (c.heap cert).Title := by
      intro e
      rw [e, hfree] at hk
      exact Option.noConfusion hk
    rw [AList.lookup_insert_ne hne]
    exact hk
  refine ⟨rfl, Function.update_same _ _ _, ?_, hkeep, ?_, ?_⟩
  · simp [CertificateModel.readCertificateByID, CertificateModel.GetCertificateByID,
      Except.map, AList.lookup_insert]
  · intro q hq
    exact Function.update_noteq hq _ _
  · intro k old hk hnot
    obtain ⟨p, hp, rfl⟩ := (record_eq_some c k old).1 hk
    have hpc : p ≠ cert := fun e => hnot (by rw [hp, e])
    simp [CertificateModel.record, hkeep k p hp, Function.update_noteq hpc]

/-- C5, worked example: `TestCreateCertificate` and `TestGetCertificateByID`, the fixture
being the record at address 0. -/
theorem C5_createCertificate_witness :
    (((NewCertificateModel NewUserModel).step (.write 0 certBlah)).CreateCertificate 0).2
      = none ∧
    (((NewCertificateModel NewUserModel).step (.write 0 certBlah)).CreateCertificate 0).1.heap 0
      = { certBlah with ID := GenerateIDFromString "Blah" } ∧
    (((NewCertificateModel NewUserModel).step (.write 0 certBlah)).CreateCertificate
        0).1.readCertificateByID (GenerateIDFromString "Blah")
      = .ok { certBlah with ID := GenerateIDFromString "Blah" } :=
  ⟨(C5_createCertificate ((NewCertificateModel NewUserModel).step (.write 0 certBlah)) 0 rfl).1,
   (C5_createCertificate ((NewCertificateModel NewUserModel).step (.write 0 certBlah)) 0
      rfl).2.1,
   (C5_createCertificate ((NewCertificateModel NewUserModel).step (.write 0 certBlah)) 0
      rfl).2.2.1⟩

set_option maxRecDepth 100000 in
/-- C5 as stated fails: in `updatedRegistry` the record at address 1, titled `"Other"`, is
stored under the id of `"Blah"`, no certificate is stored under the id of `"Other"`, and
`CreateCertificate` with that pointer rewrites the `ID` of the certificate stored under the
id of `"Blah"`. -/
theorem C5_counterexample :
    ¬ ∀ (c : CertificateModel) (cert : Ptr),
      c.store.lookup (GenerateIDFromString (c.heap cert).Title) = none →
      (c.CreateCertificate cert).2 = none ∧
      (c.CreateCertificate cert).1.heap cert
        = { c.heap cert with ID := GenerateIDFromString (c.heap cert).Title } ∧
      (c.CreateCertificate cert).1.readCertificateByID
          (GenerateIDFromString (c.heap cert).Title)
        = .ok { c.heap cert with ID := GenerateIDFromString (c.heap cert).Title } ∧
      (∀ k old, c.record k = some old → (c.CreateCertificate cert).1.record k = some old) := by
  intro h
  have h1 := (h updatedRegistry 1 (by decide)).2.2.2 (GenerateIDFromString "Blah")
    { certBlah with ID := GenerateIDFromString "Blah", Title := "Other" } (by decide)
  exact absurd h1 (by decide)

/-- C6: once `CreateCertificate first` has succeeded, after any further steps none of which
deletes the id derived from the title, `CreateCertificate` of any certificate with the same
title returns an error, does not touch its argument and leaves the registry unchanged; with
no step in between, the record under the derived id is the first certificate. -/
theorem C6_createCertificate_duplicate (c : CertificateModel) (first second : Ptr)
    (ops : List Op)
    (hok : (c.CreateCertificate first).2 = none)
    (hkept : ∀ op ∈ ops, op ≠ .deleteCertificate (GenerateIDFromString (c.heap first).Title))
    (htitle : (((c.CreateCertificate first).1.run ops).heap second).Title
      = (c.heap first).Title) :
    (((c.CreateCertificate first).1.run ops).CreateCertificate second).2 ≠ none ∧
    (((c.CreateCertificate first).1.run ops).CreateCertificate second).1.heap second
      = ((c.CreateCertificate first).1.run ops).heap second ∧
    (((c.CreateCertificate first).1.run ops).CreateCertificate second).1
      = (c.CreateCertificate first).1.run ops ∧
    (ops = [] →
      (((c.CreateCertificate first).1.run ops).CreateCertificate second).1.record
          (GenerateIDFromString (c.heap first).Title)
        = some { c.heap first with ID := GenerateIDFromString (c.heap first).Title }) := by
  have hfree := (createCertificate_ok_iff c first).1 hok
  have hin : GenerateIDFromString (c.heap first).Title ∈ (c.CreateCertificate first).1.store := by
    rw [createCertificate_free c first hfree]
    exact (AList.mem_insert _).2 (Or.inl rfl)
  have hrun := run_keeps_key ops _ _ hin hkept
  obtain ⟨old, hold⟩ := Option.isSome_iff_exists.1 (AList.lookup_isSome.2 hrun)
  rw [← htitle] at hold
  rw [createCertificate_taken _ second old hold]
  refine ⟨by simp, rfl, rfl, ?_⟩
  intro hnil
  subst hnil
  simp only [CertificateModel.run, List.foldl_nil, createCertificate_free c first hfree]
  simp [CertificateModel.record, AList.lookup_insert]

set_option maxRecDepth 100000 in
/-- C6, worked example: `TestCreateCertificateAlreadyExists`, with a note written and a
transfer opened between the two creations, and a second certificate (address 1) that
differs from the first in every field but the title. -/
theorem C6_createCertificate_duplicate_witness :
    (((((NewCertificateModel NewUserModel).step (.write 0 certBlah)).CreateCertificate 0).1.run
        [.write 0 { certBlah with ID := GenerateIDFromString "Blah", Note := "n" },
         .updateCertificate 0,
         .createTransfer (GenerateIDFromString "Blah") { Email := "e", Status := Pending },
         .write 1 { ID := "x", Title := "Blah", CreatedAt := 7, OwnerID := "eve", Year := 1999,
                    Note := "other", Transfer := { Email := "m", Status := None } }]
      ).CreateCertificate 1).2 ≠ none :=
  (C6_createCertificate_duplicate ((NewCertificateModel NewUserModel).step (.write 0 certBlah))
    0 1
    [.write 0 { certBlah with ID := GenerateIDFromString "Blah", Note := "n" },
     .updateCertificate 0,
     .createTransfer (GenerateIDFromString "Blah") { Email := "e", Status := Pending },
     .write 1 { ID := "x", Title := "Blah", CreatedAt := 7, OwnerID := "eve", Year := 1999,
                Note := "other", Transfer := { Email := "m", Status := None } }]
    rfl (by decide) (by decide)).1

/-- C7: `UpdateCertificate cert` returns an error and leaves the registry unchanged when
nothing is stored under `cert.ID`; when a record is stored there it returns no error,
`GetCertificateByID cert.ID` then yields exactly `cert` (nothing of the old record is
kept), and the entries under other ids are unchanged. -/
theorem C7_updateCertificate (c : CertificateModel) (cert : Ptr) :
    (c.store.lookup (c.heap cert).ID = none →
      (c.UpdateCertificate cert).2 ≠ none ∧ (c.UpdateCertificate cert).1 = c) ∧
    (∀ old, c.store.lookup (c.heap cert).ID = some old →
      (c.UpdateCertificate cert).2 = none ∧
      (c.UpdateCertificate cert).1.GetCertificateByID (c.heap cert).ID = .ok cert ∧
      (c.UpdateCertificate cert).1.readCertificateByID (c.heap cert).ID = .ok (c.heap cert) ∧
      (∀ k, k ≠ (c.heap cert).ID →
        (c.UpdateCertificate cert).1.store.lookup k = c.store.lookup k ∧
        (c.UpdateCertificate cert).1.record k = c.record k) ∧
      (c.UpdateCertificate cert).1.heap = c.heap ∧
      (c.UpdateCertificate cert).1.userModel = c.userModel) := by
  refine ⟨?_, ?_⟩
  · intro h
    simp [updateCertificate_missing c cert h]
  · intro old h
    rw [updateCertificate_stored c cert old h]
    refine ⟨rfl, ?_, ?_, ?_, rfl, rfl⟩
    · simp [CertificateModel.GetCertificateByID, AList.lookup_insert]
    · simp [CertificateModel.readCertificateByID, CertificateModel.GetCertificateByID,
        Except.map, AList.lookup_insert]
    · intro k hk
      simp [CertificateModel.record, AList.lookup_insert_ne hk]

/-- C7, worked example: `TestUpdateNonExistingCertificate`, and an update of the record of
`pendingRegistry` by a record (address 1) that differs in every field but the id. -/
theorem C7_updateCertificate_witness :
    (((NewCertificateModel NewUserModel).step (.write 0 certBlah)).UpdateCertificate 0).2
      ≠ none ∧
    (((pendingRegistry NewUserModel).step
        (.write 1 { ID := "c1", Title := "Other", CreatedAt := 5, OwnerID := "eve",
                    Year := 2001, Note := "Updated cert for dummy reasons",
                    Transfer := { Email := "", Status := "" } })).UpdateCertificate
        1).1.readCertificateByID "c1"
      = .ok { ID := "c1", Title := "Other", CreatedAt := 5, OwnerID := "eve", Year := 2001,
              Note := "Updated cert for dummy reasons",
              Transfer := { Email := "", Status := "" } } :=
  ⟨((C7_updateCertificate ((NewCertificateModel NewUserModel).step (.write 0 certBlah)) 0).1
      rfl).1,
   ((C7_updateCertificate ((pendingRegistry NewUserModel).step
        (.write 1 { ID := "c1", Title := "Other", CreatedAt := 5, OwnerID := "eve",
                    Year := 2001, Note := "Updated cert for dummy reasons",
                    Transfer := { Email := "", Status := "" } })) 1).2 0 (by decide)).2.2.1⟩

/-- C8: `DeleteCertificate` has no error result and is idempotent: deleting an id twice
gives the state reached by deleting it once, deleting an id that is not stored leaves the
state unchanged, `GetCertificateByID` of a deleted id returns an error, and the entries
under other ids and the user directory are unchanged. -/
theorem C8_deleteCertificate (c : CertificateModel) (certID : String) :
    (c.DeleteCertificate certID).DeleteCertificate certID = c.DeleteCertificate certID ∧
    (c.store.lookup certID = none → c.DeleteCertificate certID = c) ∧
    (∃ msg, (c.DeleteCertificate certID).GetCertificateByID certID = .error msg) ∧
    (∀ k, k ≠ certID →
      (c.DeleteCertificate certID).store.lookup k = c.store.lookup k ∧
      (c.DeleteCertificate certID).record k = c.record k) ∧
    (c.DeleteCertificate certID).heap = c.heap ∧
    (c.DeleteCertificate certID).userModel = c.userModel := by
  have hgone : (c.store.erase certID).lookup certID = none := AList.lookup_erase _ _
  refine ⟨?_, ?_, ?_, ?_, rfl, rfl⟩
  · simp only [CertificateModel.DeleteCertificate]
    rw [erase_absent _ _ hgone]
  · intro h
    simp only [CertificateModel.DeleteCertificate]
    rw [erase_absent _ _ h]
  · exact ⟨"Certificacte not found", by
      simp [CertificateModel.DeleteCertificate, CertificateModel.GetCertificateByID, hgone]⟩
  · intro k hk
    simp [CertificateModel.DeleteCertificate, CertificateModel.record,
      AList.lookup_erase_ne hk]

/-- C8, worked example: `TestDeleteCertificate` on `idleRegistry`, and the deletion of an
id that was never stored. -/
theorem C8_deleteCertificate_witness :
    idleRegistry.readCertificateByID "c1" = .ok { certBlah with ID := "c1" } ∧
    (idleRegistry.DeleteCertificate "c1").GetCertificateByID "c1"
      = .error "Certificacte not found" ∧
    (idleRegistry.DeleteCertificate "c1").DeleteCertificate "c1"
      = idleRegistry.DeleteCertificate "c1" ∧
    idleRegistry.DeleteCertificate "nope" = idleRegistry :=
  ⟨by decide, by decide, (C8_deleteCertificate idleRegistry "c1").1,
   (C8_deleteCertificate idleRegistry "nope").2.1 (by decide)⟩

/-- C10: `CheckCertificateOwnership certID ownerID` returns `(true, nil)` exactly when a
certificate is stored under `certID` with owner `ownerID`, `(false, nil)` when one is stored
with another owner, and `false` with an error exactly when none is stored. It is a function
of the state and returns no state: the store is not modified. -/
theorem C10_checkCertificateOwnership (c : CertificateModel) (certID ownerID : String) :
    (c.CheckCertificateOwnership certID ownerID = (true, none)
      ↔ ∃ cert, c.record certID = some cert ∧ cert.OwnerID = ownerID) ∧
    (∀ cert, c.record certID = some cert → cert.OwnerID ≠ ownerID →
      c.CheckCertificateOwnership certID ownerID = (false, none)) ∧
    (((c.CheckCertificateOwnership certID ownerID).1 = false ∧
        (c.CheckCertificateOwnership certID ownerID).2 ≠ none)
      ↔ c.store.lookup certID = none) := by
  cases h : c.store.lookup certID with
  | none => simp [CertificateModel.CheckCertificateOwnership, CertificateModel.record, h]
  | some p =>
    by_cases ho : (c.heap p).OwnerID = ownerID
    · simp [CertificateModel.CheckCertificateOwnership, CertificateModel.record, h, ho]
    · simp [CertificateModel.CheckCertificateOwnership, CertificateModel.record, h, ho]

/-- C10, worked example: `TestCheckCertificateOwnership` on `idleRegistry`. -/
theorem C10_checkCertificateOwnership_witness :
    idleRegistry.CheckCertificateOwnership "c1" "abcddef" = (false, none) ∧
    idleRegistry.CheckCertificateOwnership "c1" "ab12" = (true, none) ∧
    idleRegistry.store.lookup "nope" = none :=
  ⟨(C10_checkCertificateOwnership idleRegistry "c1" "abcddef").2.1
      { certBlah with ID := "c1" } (by decide) (by decide),
   (C10_checkCertificateOwnership idleRegistry "c1" "ab12").1.2
      ⟨{ certBlah with ID := "c1" }, by decide, by decide⟩,
   (C10_checkCertificateOwnership idleRegistry "nope" "ab12").2.2.1 ⟨by decide, by decide⟩⟩

/-- C11: when no user is stored under `GenerateIDFromString u.Email`, `CreateUser u` returns
no error and sets `u.ID` to that id, leaving `Email` and `Name` alone; afterwards
`GetUserByID` of that id and `GetUserByEmail u.Email` both return, without error, the user
with `u`'s e-mail and name and the derived id. `CreateUser u` returns an error exactly when
a user is stored under that id, and then it changes neither the directory nor `u`. -/
theorem C11_createUser (d : UserModel) (u : User) :
    (d.store.lookup (GenerateIDFromString u.Email) = none →
      (d.CreateUser u).2.2 = none ∧
      (d.CreateUser u).2.1 = { u with ID := GenerateIDFromString u.Email } ∧
      (d.CreateUser u).1.GetUserByID (GenerateIDFromString u.Email)
        = .ok { ID := GenerateIDFromString u.Email, Email := u.Email, Name := u.Name } ∧
      (d.CreateUser u).1.GetUserByEmail u.Email
        = .ok { ID := GenerateIDFromString u.Email, Email := u.Email, Name := u.Name }) ∧
    ((d.CreateUser u).2.2 ≠ none
      ↔ ∃ old, d.store.lookup (GenerateIDFromString u.Email) = some old) ∧
    ((d.CreateUser u).2.2 ≠ none → (d.CreateUser u).1 = d ∧ (d.CreateUser u).2.1 = u) := by
  cases h : d.store.lookup (GenerateIDFromString u.Email) with
  | none =>
    rw [createUser_free d u h]
    simp [UserModel.GetUserByID, UserModel.GetUserByEmail, AList.lookup_insert]
  | some old =>
    rw [createUser_taken d u old h]
    simp

set_option maxRecDepth 100000 in
/-- C11, worked example: `TestCreateUser` and `TestGetUser` in a new directory, and
`TestDuplicateUser`: the same user a second time. -/
theorem C11_createUser_witness :
    (NewUserModel.CreateUser testUser).2.2 = none ∧
    (NewUserModel.CreateUser testUser).2.1
      = { testUser with ID := GenerateIDFromString "test.user@verisart.com" } ∧
    (NewUserModel.CreateUser testUser).1.GetUserByID
        (GenerateIDFromString "test.user@verisart.com")
      = .ok { testUser with ID := GenerateIDFromString "test.user@verisart.com" } ∧
    (NewUserModel.CreateUser testUser).1.GetUserByEmail "test.user@verisart.com"
      = .ok { testUser with ID := GenerateIDFromString "test.user@verisart.com" } ∧
    ((NewUserModel.CreateUser testUser).1.CreateUser testUser).2.2 ≠ none :=
  ⟨((C11_createUser NewUserModel testUser).1 rfl).1,
   ((C11_createUser NewUserModel testUser).1 rfl).2.1,
   ((C11_createUser NewUserModel testUser).1 rfl).2.2.1,
   ((C11_createUser NewUserModel testUser).1 rfl).2.2.2,
   (C11_createUser (NewUserModel.CreateUser testUser).1 testUser).2.1.2
     ⟨{ testUser with ID := GenerateIDFromString "test.user@verisart.com" }, by decide⟩⟩

/-- C12: once `CreateUser first` has succeeded, after any further steps (among them any
number of `CreateUser`, direct or made by `AcceptTransfer`), `CreateUser` of another user
with the same e-mail, whatever its name, returns an error and leaves the id map and the
e-mail map unchanged, and `GetUserByEmail` of that e-mail returns the first user, with the
first user's name and id, before and after the refused creation. -/
theorem C12_createUser_duplicate (c : CertificateModel) (first second : User) (ops : List Op)
    (hok : (c.userModel.CreateUser first).2.2 = none)
    (hemail : second.Email = first.Email) :
    ((((c.step (.createUser first)).run ops).userModel.CreateUser second).2.2 ≠ none) ∧
    (((c.step (.createUser first)).run ops).userModel.CreateUser second).1.store
      = ((c.step (.createUser first)).run ops).userModel.store ∧
    (((c.step (.createUser first)).run ops).userModel.CreateUser second).1.emailIndex
      = ((c.step (.createUser first)).run ops).userModel.emailIndex ∧
    ((c.step (.createUser first)).run ops).userModel.GetUserByEmail first.Email
      = .ok { ID := GenerateIDFromString first.Email, Email := first.Email,
              Name := first.Name } ∧
    (((c.step (.createUser first)).run ops).userModel.CreateUser second).1.GetUserByEmail
        first.Email
      = .ok { ID := GenerateIDFromString first.Email, Email := first.Email,
              Name := first.Name } := by
  have hfree : c.userModel.store.lookup (GenerateIDFromString first.Email) = none := by
    cases hl : c.userModel.store.lookup (GenerateIDFromString first.Email) with
    | none => rfl
    | some old => simp [createUser_taken _ first old hl] at hok
  have hstart : (c.step (.createUser first)).userModel.store.lookup
        (GenerateIDFromString first.Email) ≠ none ∧
      (c.step (.createUser first)).userModel.emailIndex.lookup first.Email
        = some { ID := GenerateIDFromString first.Email, Email := first.Email,
                 Name := first.Name } := by
    simp [CertificateModel.step, createUser_free _ first hfree, AList.lookup_insert]
  have hrun := run_userModel_invariant _ (createUser_keeps_first first.Email _) ops _ hstart
  obtain ⟨old, hold⟩ : ∃ old, ((c.step (.createUser first)).run ops).userModel.store.lookup
      (GenerateIDFromString second.Email) = some old := by
    rw [hemail]
    cases hl : ((c.step (.createUser first)).run ops).userModel.store.lookup
        (GenerateIDFromString first.Email) with
    | none => exact absurd hl hrun.1
    | some w => exact ⟨w, rfl⟩
  rw [createUser_taken _ second old hold]
  refine ⟨by simp, rfl, rfl, ?_, ?_⟩ <;>
    simp [UserModel.GetUserByEmail, hrun.2]

set_option maxRecDepth 100000 in
/-- C12, worked example: `TestDuplicateUser`, with another user created in between and a
second user that differs from the first in its name. -/
theorem C12_createUser_duplicate_witness :
    (((((NewCertificateModel NewUserModel).step (.createUser testUser)).run
        [.createUser { ID := "", Email := "bob@table.com", Name := "Bob" }]).userModel.CreateUser
        { ID := "", Email := "test.user@verisart.com", Name := "Impostor" }).2.2 ≠ none) ∧
    (((NewCertificateModel NewUserModel).step (.createUser testUser)).run
        [.createUser { ID := "", Email := "bob@table.com", Name := "Bob" }]
      ).userModel.GetUserByEmail "test.user@verisart.com"
      = .ok { ID := GenerateIDFromString "test.user@verisart.com",
              Email := "test.user@verisart.com", Name := "Test User" } :=
  ⟨(C12_createUser_duplicate (NewCertificateModel NewUserModel) testUser
      { ID := "", Email := "test.user@verisart.com", Name := "Impostor" }
      [.createUser { ID := "", Email := "bob@table.com", Name := "Bob" }] rfl rfl).1,
   (C12_createUser_duplicate (NewCertificateModel NewUserModel) testUser
      { ID := "", Email := "test.user@verisart.com", Name := "Impostor" }
      [.createUser { ID := "", Email := "bob@table.com", Name := "Bob" }] rfl rfl).2.2.2.1⟩

set_option maxRecDepth 100000 in
/-- C13: `GetUsers` returns an allocated slice `l` with one element per entry of the id map:
its length is the number of keys of the map, it holds, position by position, the records
stored under the (duplicate-free) keys of the map, and a user is in it exactly when it is
stored. For a directory with no users it is the empty allocated slice. A new directory lists
0 users, and 1 after one successful `CreateUser` (`TestGetUsers`). -/
theorem C13_getUsers :
    (∀ d : UserModel, ∃ l : List User,
      d.GetUsers = some l ∧
      l.length = d.store.keys.length ∧
      d.store.keys.Nodup ∧
      List.Forall₂ (fun k u => d.store.lookup k = some u) d.store.keys l ∧
      (∀ u, u ∈ l ↔ ∃ k, d.store.lookup k = some u)) ∧
    (∀ d : UserModel, d.store = ∅ → d.GetUsers = some []) ∧
    (NewUserModel.GetUsers.len = 0 ∧
     (NewUserModel.CreateUser testUser).2.2 = none ∧
     (NewUserModel.CreateUser testUser).1.GetUsers.len = 1) := by
  have hmem : ∀ (d : UserModel) (e : Sigma fun _ : String => User),
      e ∈ d.store.entries ↔ d.store.lookup e.1 = some e.2 := by
    intro d e
    rw [← Option.mem_def, AList.mem_lookup_iff]
  refine ⟨?_, ?_, ?_⟩
  · intro d
    refine ⟨_, getUsers_eq d, ?_, d.store.keys_nodup, ?_, ?_⟩
    · simp [AList.keys, List.keys]
    · show List.Forall₂ _ (d.store.entries.map Sigma.fst) (d.store.entries.map Sigma.snd)
      rw [List.forall₂_map_left_iff, List.forall₂_map_right_iff, List.forall₂_same]
      intro e he
      exact (hmem d e).1 he
    · intro u
      constructor
      · intro hu
        obtain ⟨e, he, rfl⟩ := List.mem_map.1 hu
        exact ⟨e.1, (hmem d e).1 he⟩
      · rintro ⟨k, hk⟩
        exact List.mem_map.2 ⟨⟨k, u⟩, (hmem d ⟨k, u⟩).2 hk, rfl⟩
  · intro d hd
    rw [getUsers_eq, hd]
    rfl
  · decide

/-- C13, worked example: a directory whose id map is empty, and `bobDirectory`, whose one
user is listed. -/
theorem C13_getUsers_witness :
    NewUserModel.GetUsers = some [] ∧
    ∃ l : List User, bobDirectory.GetUsers = some l ∧
      l.length = bobDirectory.store.keys.length ∧
      bobDirectory.store.keys.Nodup ∧
      List.Forall₂ (fun k u => bobDirectory.store.lookup k = some u) bobDirectory.store.keys l ∧
      (∀ u, u ∈ l ↔ ∃ k, bobDirectory.store.lookup k = some u) :=
  ⟨C13_getUsers.2.1 NewUserModel rfl, C13_getUsers.1 bobDirectory⟩

/-- C14: `GenerateIDFromString` is a function of its argument alone, and its result is the
hex rendering of a 16-byte digest: 32 characters, which are 32 bytes, each of them one of
`0123456789abcdef`. The same holds for the digest of any byte sequence. The id of
`"A dummy string"` has length 32 (`TestGenerateIDFromString`). -/
theorem C14_generateID_shape :
    (∀ s t : String, s = t → GenerateIDFromString s = GenerateIDFromString t) ∧
    (∀ s : String,
      GenerateIDFromString s = hexBytes (md5Sum (utf8Bytes s)) ∧
      (md5Sum (utf8Bytes s)).length = 16 ∧
      (GenerateIDFromString s).length = 32 ∧
      (GenerateIDFromString s).utf8ByteSize = 32 ∧
      ∀ ch ∈ (GenerateIDFromString s).data, ch ∈ "0123456789abcdef".data) ∧
    (∀ msg : List Nat,
      (hexBytes (md5Sum msg)).length = 32 ∧
      (hexBytes (md5Sum msg)).utf8ByteSize = 32 ∧
      ∀ ch ∈ (hexBytes (md5Sum msg)).data, ch ∈ "0123456789abcdef".data) ∧
    (GenerateIDFromString "A dummy string").length = 32 := by
  have hall : ∀ msg : List Nat,
      (hexBytes (md5Sum msg)).length = 32 ∧
      (hexBytes (md5Sum msg)).utf8ByteSize = 32 ∧
      ∀ ch ∈ (hexBytes (md5Sum msg)).data, ch ∈ "0123456789abcdef".data := by
    intro msg
    refine ⟨?_, ?_, hexBytes_digits _ (md5Sum_lt msg)⟩
    · rw [hexBytes_length, md5Sum_length]
    · rw [hexBytes_utf8ByteSize _ (md5Sum_lt msg), md5Sum_length]
  refine ⟨fun s t h => by rw [h], ?_, hall, (hall _).1⟩
  intro s
  exact ⟨rfl, md5Sum_length _, (hall _).1, (hall _).2.1, (hall _).2.2⟩

/-- C14, worked example: two calls on equal inputs give equal ids. -/
theorem C14_generateID_shape_witness :
    GenerateIDFromString "A dummy string" = GenerateIDFromString "A dummy string" :=
  C14_generateID_shape.1 "A dummy string" "A dummy string" rfl

/-- C15: when `AcceptTransfer certID` succeeds, a second `AcceptTransfer certID` right after
it returns an error and leaves the whole state, the certificate's owner and the user
directory included, as the first call left it. -/
theorem C15_acceptTransfer_twice (c : CertificateModel) (certID : String)
    (hok : (c.AcceptTransfer certID).2 = none) :
    ((c.AcceptTransfer certID).1.AcceptTransfer certID).2 ≠ none ∧
    ((c.AcceptTransfer certID).1.AcceptTransfer certID).1 = (c.AcceptTransfer certID).1 ∧
    ((c.AcceptTransfer certID).1.AcceptTransfer certID).1.record certID
      = (c.AcceptTransfer certID).1.record certID ∧
    ((c.AcceptTransfer certID).1.AcceptTransfer certID).1.userModel
      = (c.AcceptTransfer certID).1.userModel := by
  obtain ⟨cert, h, hst⟩ := (acceptTransfer_ok_iff c certID).1 hok
  obtain ⟨p, hp, rfl⟩ := (record_eq_some c certID cert).1 h
  obtain ⟨d, owner, heq⟩ := acceptTransfer_pending c certID p hp hst
  rw [heq]
  have hlook : (CertificateModel.mk
        (Function.update c.heap p
          { c.heap p with OwnerID := owner.ID, Transfer := { Email := "", Status := None } })
        c.store d).store.lookup certID = some p := hp
  have hnone : ((CertificateModel.mk
        (Function.update c.heap p
          { c.heap p with OwnerID := owner.ID, Transfer := { Email := "", Status := None } })
        c.store d).heap p).Transfer.Status ≠ Pending := by
    simp only [Function.update_same]
    decide
  rw [acceptTransfer_not_pending _ certID p hlook hnone]
  simp

/-- C15, worked example: the transfer of `pendingRegistry` is accepted once; the second
acceptance is refused. -/
theorem C15_acceptTransfer_twice_witness :
    ((pendingRegistry NewUserModel).AcceptTransfer "c1").2 = none ∧
    (((pendingRegistry NewUserModel).AcceptTransfer "c1").1.AcceptTransfer "c1").2 ≠ none ∧
    (((pendingRegistry NewUserModel).AcceptTransfer "c1").1.AcceptTransfer "c1").1
      = ((pendingRegistry NewUserModel).AcceptTransfer "c1").1 :=
  ⟨rfl,
   (C15_acceptTransfer_twice (pendingRegistry NewUserModel) "c1" rfl).1,
   (C15_acceptTransfer_twice (pendingRegistry NewUserModel) "c1" rfl).2.1⟩

/-- C16: in every state reached from a new registry over a new user directory by any
sequence of calls (`CreateUser` directly or through `AcceptTransfer` among them), two
entries of the id map whose users have the same e-mail are one entry, and the e-mails of the
users listed by `GetUsers` are pairwise distinct. -/
theorem C16_email_unique (ops : List Op) :
    (∀ k1 k2 u1 u2,
      ((NewCertificateModel NewUserModel).run ops).userModel.store.lookup k1 = some u1 →
      ((NewCertificateModel NewUserModel).run ops).userModel.store.lookup k2 = some u2 →
      u1.Email = u2.Email → k1 = k2 ∧ u1 = u2) ∧
    (∃ l : List User,
      ((NewCertificateModel NewUserModel).run ops).userModel.GetUsers = some l ∧
      (l.map User.Email).Nodup) := by
  have hI := (reachable_indexed ops).1
  refine ⟨?_, ?_⟩
  · intro k1 k2 u1 u2 h1 h2 he
    have hk : k1 = k2 := by
      rw [(hI k1 u1 h1).2.1, (hI k2 u2 h2).2.1, he]
    subst hk
    rw [h1] at h2
    exact ⟨rfl, Option.some.inj h2⟩
  · refine ⟨_, getUsers_eq _, ?_⟩
    have hkeys := ((NewCertificateModel NewUserModel).run ops).userModel.store.keys_nodup
    have hmap : (((NewCertificateModel NewUserModel).run ops).userModel.store.entries.map
          Sigma.snd).map (fun u => GenerateIDFromString u.Email)
        = ((NewCertificateModel NewUserModel).run ops).userModel.store.keys := by
      simp only [AList.keys, List.keys, List.map_map]
      apply List.map_congr_left
      intro e he
      have hl : ((NewCertificateModel NewUserModel).run ops).userModel.store.lookup e.1
          = some e.2 := by
        rw [← Option.mem_def, AList.mem_lookup_iff]
        exact he
      exact ((hI e.1 e.2 hl).2.1).symm
    have hsplit : (((NewCertificateModel NewUserModel).run ops).userModel.store.entries.map
          Sigma.snd).map (fun u => GenerateIDFromString u.Email)
        = ((((NewCertificateModel NewUserModel).run ops).userModel.store.entries.map
          Sigma.snd).map User.Email).map GenerateIDFromString := by
      simp only [List.map_map]
      rfl
    rw [← hmap, hsplit] at hkeys
    exact List.Nodup.of_map _ hkeys

set_option maxRecDepth 100000 in
/-- C16, worked example: after creating the test user, trying to create it again under
another name, and accepting a transfer to a new address, the directory holds two users,
with two e-mails. -/
theorem C16_email_unique_witness :
    ∃ l : List User,
      ((NewCertificateModel NewUserModel).run
        [.createUser testUser,
         .createUser { testUser with Name := "Impostor" },
         .write 0 certBlah,
         .createCertificate 0,
         .createTransfer (GenerateIDFromString "Blah")
           { Email := "bob@table.com", Status := Pending },
         .acceptTransfer (GenerateIDFromString "Blah")]).userModel.GetUsers = some l ∧
      (l.map User.Email).Nodup :=
  (C16_email_unique _).2

/-! ### Identity of the stored certificates -/

/-- A pointer found under a key is among the pointers of the entries. -/
theorem stored_pointer_mem (c : CertificateModel) (k : String) (p : Ptr)
    (h : c.store.lookup k = some p) : p ∈ c.store.entries.map Sigma.snd := by
  have hmem : (⟨k, p⟩ : Sigma fun _ : String => Ptr) ∈ c.store.entries := by
    rw [← AList.mem_lookup_iff, Option.mem_def]
    exact h
  exact List.mem_map.2 ⟨⟨k, p⟩, hmem, rfl⟩

/-- One step keeps "every stored certificate has the id derived from its title" when it is
not a write, to a stored record, of a record without that property, nor an
`UpdateCertificate` of such a record. -/
theorem step_keeps_derived_id (c : CertificateModel) (op : Op)
    (hop : c.KeepsDerivedIDs [op])
    (h : ∀ k p, c.store.lookup k = some p →
      (c.heap p).ID = GenerateIDFromString (c.heap p).Title) :
    ∀ k p, (c.step op).store.lookup k = some p →
      ((c.step op).heap p).ID = GenerateIDFromString ((c.step op).heap p).Title := by
  cases op with
  | createUser user => exact h
  | write cert value =>
    intro k p hk
    show (Function.update c.heap cert value p).ID
      = GenerateIDFromString (Function.update c.heap cert value p).Title
    by_cases hp : p = cert
    · subst hp
      rw [Function.update_same]
      exact hop.1 (stored_pointer_mem c k p hk)
    · rw [Function.update_noteq hp]
      exact h k p hk
  | createCertificate cert =>
    cases hl : c.store.lookup (GenerateIDFromString (c.heap cert).Title) with
    | none =>
      simp only [CertificateModel.step, createCertificate_free c cert hl]
      intro k p hk
      by_cases hp : p = cert
      · subst hp
        simp only [Function.update_same]
      · simp only [Function.update_noteq hp]
        rcases lookup_insert_cases _ _ _ _ _ hk with ⟨_, hpc⟩ | ⟨_, hold⟩
        · exact absurd hpc hp
        · exact h k p hold
    | some old =>
      simp only [CertificateModel.step, createCertificate_taken c cert old hl]
      exact h
  | updateCertificate cert =>
    cases hl : c.store.lookup (c.heap cert).ID with
    | none =>
      simp only [CertificateModel.step, updateCertificate_missing c cert hl]
      exact h
    | some old =>
      simp only [CertificateModel.step, updateCertificate_stored c cert old hl]
      intro k p hk
      rcases lookup_insert_cases _ _ _ _ _ hk with ⟨_, hpc⟩ | ⟨_, hold⟩
      · rw [hpc]
        exact hop.1
      · exact h k p hold
  | deleteCertificate certID =>
    intro k p hk
    by_cases hkc : k = certID
    · subst hkc
      have hnone : (c.store.erase k).lookup k = none := AList.lookup_erase _ _
      rw [show (c.step (.deleteCertificate k)).store = c.store.erase k from rfl, hnone] at hk
      exact Option.noConfusion hk
    · rw [show (c.step (.deleteCertificate certID)).store = c.store.erase certID from rfl,
        AList.lookup_erase_ne hkc] at hk
      exact h k p hk
  | createTransfer certID tsx =>
    cases hl : c.store.lookup certID with
    | none =>
      simp only [CertificateModel.step, createTransfer_missing c certID tsx hl]
      exact h
    | some p0 =>
      simp only [CertificateModel.step, createTransfer_stored c certID tsx p0 hl]
      intro k p hk
      by_cases hp : p = p0
      · subst hp
        simp only [Function.update_same]
        exact h certID p hl
      · simp only [Function.update_noteq hp]
        exact h k p hk
  | acceptTransfer certID =>
    cases hl : c.store.lookup certID with
    | none =>
      simp only [CertificateModel.step, acceptTransfer_missing c certID hl]
      exact h
    | some p0 =>
      by_cases hst : (c.heap p0).Transfer.Status = Pending
      · obtain ⟨d, owner, heq⟩ := acceptTransfer_pending c certID p0 hl hst
        simp only [CertificateModel.step, heq]
        intro k p hk
        by_cases hp : p = p0
        · subst hp
          simp only [Function.update_same]
          exact h certID p hl
        · simp only [Function.update_noteq hp]
          exact h k p hk
      · simp only [CertificateModel.step, acceptTransfer_not_pending c certID p0 hl hst]
        exact h

/-- C17 (as amended): in every state reached from a new registry by a sequence of
`CreateCertificate`, `UpdateCertificate`, `DeleteCertificate`, `CreateTransfer` and
`AcceptTransfer` calls (and `CreateUser` calls) in which every certificate passed to
`UpdateCertificate` has `ID = GenerateIDFromString Title`, and between which the caller
writes to a stored certificate only records of which that holds, every stored certificate's
`ID` is `GenerateIDFromString` of its `Title`. -/
theorem C17_certificate_id_derived (d : UserModel) (ops : List Op)
    (hkeeps : (NewCertificateModel d).KeepsDerivedIDs ops) :
    ∀ k cert, ((NewCertificateModel d).run ops).record k = some cert →
      cert.ID = GenerateIDFromString cert.Title := by
  have hgen : ∀ (ops : List Op) (c : CertificateModel), c.KeepsDerivedIDs ops →
      (∀ k p, c.store.lookup k = some p →
        (c.heap p).ID = GenerateIDFromString (c.heap p).Title) →
      ∀ k p, (c.run ops).store.lookup k = some p →
        ((c.run ops).heap p).ID = GenerateIDFromString ((c.run ops).heap p).Title := by
    intro ops
    induction ops with
    | nil => intro c _ h; exact h
    | cons op rest ih =>
      intro c hk h
      exact ih (c.step op) hk.2 (step_keeps_derived_id c op ⟨hk.1, trivial⟩ h)
  intro k cert hrec
  obtain ⟨p, hp, rfl⟩ := (record_eq_some _ k cert).1 hrec
  apply hgen ops (NewCertificateModel d) hkeeps _ k p hp
  intro k p h
  simp [NewCertificateModel] at h

set_option maxRecDepth 100000 in
/-- C17, worked example: `TestUpdateCertificate`: the note of the stored fixture is
rewritten and the record passed to `UpdateCertificate`; the stored record has the id
derived from its title. -/
theorem C17_certificate_id_derived_witness :
    (NewCertificateModel NewUserModel).KeepsDerivedIDs
      [.write 0 certBlah,
       .createCertificate 0,
       .write 0 { certBlah with ID := GenerateIDFromString "Blah",
                                Note := "Updated cert for dummy reasons" },
       .updateCertificate 0] ∧
    ∃ cert, ((NewCertificateModel NewUserModel).run
        [.write 0 certBlah,
         .createCertificate 0,
         .write 0 { certBlah with ID := GenerateIDFromString "Blah",
                                  Note := "Updated cert for dummy reasons" },
         .updateCertificate 0]).record (GenerateIDFromString "Blah") = some cert ∧
      cert.Note = "Updated cert for dummy reasons" ∧
      cert.ID = GenerateIDFromString cert.Title :=
  ⟨by simp only [CertificateModel.KeepsDerivedIDs]; decide,
   { certBlah with ID := GenerateIDFromString "Blah",
                   Note := "Updated cert for dummy reasons" }, by decide, rfl,
   C17_certificate_id_derived NewUserModel
     [.write 0 certBlah,
      .createCertificate 0,
      .write 0 { certBlah with ID := GenerateIDFromString "Blah",
                               Note := "Updated cert for dummy reasons" },
      .updateCertificate 0]
     (by simp only [CertificateModel.KeepsDerivedIDs]; decide)
     (GenerateIDFromString "Blah") _ (by decide)⟩

set_option maxRecDepth 100000 in
/-- C17 as stated fails, also when the caller only builds the records it is about to pass:
after `CreateCertificate` of the fixture, `UpdateCertificate` with the stored id and the
title `"Other"` succeeds, and the record then stored has an `ID` that is not
`GenerateIDFromString` of its `Title`. -/
theorem C17_counterexample :
    ¬ ∀ (ops : List Op), (NewCertificateModel NewUserModel).OnlyNewRecordsWritten ops →
      ∀ (k : String) (cert : Certificate),
        ((NewCertificateModel NewUserModel).run ops).record k = some cert →
        cert.ID = GenerateIDFromString cert.Title := by
  intro h
  have h1 := h
    [.write 0 certBlah,
     .createCertificate 0,
     .write 1 { certBlah with ID := GenerateIDFromString "Blah", Title := "Other" },
     .updateCertificate 1]
    (by simp only [CertificateModel.OnlyNewRecordsWritten]; decide)
    (GenerateIDFromString "Blah")
    { certBlah with ID := GenerateIDFromString "Blah", Title := "Other" } (by decide)
  exact absurd h1 (by decide)

/-! ### Status of a transfer after `CreateTransfer`, and the result of `AcceptTransfer` -/

/-- C18 (as amended): `CreateTransfer` stores the status it is given. On a stored
certificate it returns no error and the certificate's status is then `tsx.Status`; it is
`Pending`, and the following `AcceptTransfer` does not fail with "No transfer has been
initiated for this certificate", exactly when `tsx.Status` is `Pending`. -/
theorem C18_createTransfer_keeps_given_status (c : CertificateModel) (certID : String)
    (tsx : Transfer) (cert : Certificate) (hcert : c.record certID = some cert) :
    (c.CreateTransfer certID tsx).2 = none ∧
    ((c.CreateTransfer certID tsx).1.record certID).map (fun cert => cert.Transfer.Status)
      = some tsx.Status ∧
    (((c.CreateTransfer certID tsx).1.record certID).map (fun cert => cert.Transfer.Status)
        = some Pending ↔ tsx.Status = Pending) ∧
    (((c.CreateTransfer certID tsx).1.AcceptTransfer certID).2
        ≠ some "No transfer has been initiated for this certificate"
      ↔ tsx.Status = Pending) := by
  obtain ⟨p, hp, rfl⟩ := (record_eq_some c certID cert).1 hcert
  rw [createTransfer_stored c certID tsx p hp]
  have hlook : (CertificateModel.mk
        (Function.update c.heap p { c.heap p with Transfer := tsx }) c.store
        c.userModel).store.lookup certID = some p := hp
  have hstat : ((CertificateModel.mk
        (Function.update c.heap p { c.heap p with Transfer := tsx }) c.store
        c.userModel).heap p).Transfer.Status = tsx.Status := by
    simp only [Function.update_same]
  refine ⟨rfl, by simp [CertificateModel.record, hp], by simp [CertificateModel.record, hp],
    ?_⟩
  by_cases hst : tsx.Status = Pending
  · obtain ⟨d, owner, heq⟩ := acceptTransfer_pending _ certID p hlook (hstat.trans hst)
    simp [heq, hst]
  · have hst2 : ((CertificateModel.mk
          (Function.update c.heap p { c.heap p with Transfer := tsx }) c.store
          c.userModel).heap p).Transfer.Status ≠ Pending := by
      rw [hstat]
      exact hst
    simp [acceptTransfer_not_pending _ certID p hlook hst2, hst]

/-- C18, worked example: `TestCreateTransfer` and `TestAcceptTransfer`: the transfer is
passed with the status `Pending`, and the following `AcceptTransfer` does not fail for want
of a transfer. -/
theorem C18_createTransfer_keeps_given_status_witness :
    (idleRegistry.CreateTransfer "c1" { Email := "bob@table.com", Status := Pending }).2
      = none ∧
    ((idleRegistry.CreateTransfer "c1"
        { Email := "bob@table.com", Status := Pending }).1.record "c1").map
        (fun cert => cert.Transfer.Status) = some Pending ∧
    ((idleRegistry.CreateTransfer "c1"
        { Email := "bob@table.com", Status := Pending }).1.AcceptTransfer "c1").2
      ≠ some "No transfer has been initiated for this certificate" :=
  ⟨(C18_createTransfer_keeps_given_status idleRegistry "c1"
      { Email := "bob@table.com", Status := Pending } { certBlah with ID := "c1" }
      (by decide)).1,
   (C18_createTransfer_keeps_given_status idleRegistry "c1"
      { Email := "bob@table.com", Status := Pending } { certBlah with ID := "c1" }
      (by decide)).2.1,
   (C18_createTransfer_keeps_given_status idleRegistry "c1"
      { Email := "bob@table.com", Status := Pending } { certBlah with ID := "c1" }
      (by decide)).2.2.2.2 rfl⟩

set_option maxRecDepth 100000 in
/-- C18 as stated fails: after `CreateCertificate` of the fixture, `CreateTransfer` with
`Transfer{Email: "bob@table.com"}` returns no error, the stored status is the empty string,
not `Pending`, and the following `AcceptTransfer` fails with "No transfer has been
initiated for this certificate". -/
theorem C18_counterexample :
    ¬ ∀ (c : CertificateModel) (certID : String) (tsx : Transfer) (cert : Certificate),
      c.record certID = some cert →
      (c.CreateTransfer certID tsx).2 = none →
      ((c.CreateTransfer certID tsx).1.record certID).map (fun cert => cert.Transfer.Status)
        = some Pending ∧
      ((c.CreateTransfer certID tsx).1.AcceptTransfer certID).2
        ≠ some "No transfer has been initiated for this certificate" := by
  intro h
  have h1 := h ((NewCertificateModel NewUserModel).run [.write 0 certBlah, .createCertificate 0])
    (GenerateIDFromString "Blah") { Email := "bob@table.com", Status := "" }
    { certBlah with ID := GenerateIDFromString "Blah" } (by decide) (by decide)
  exact absurd h1.1 (by decide)

set_option maxRecDepth 100000 in
/-- C19: `AcceptTransfer certID` returns no error exactly when a certificate is stored under
`certID` with transfer status `Pending`, whatever `GetUserByEmail` and `CreateUser` return
for the recipient. In `collisionRegistry` the lookup of the recipient fails and the
`CreateUser` made for it is refused, and `AcceptTransfer` still returns no error. -/
theorem C19_acceptTransfer_ok_iff :
    (∀ (c : CertificateModel) (certID : String),
      (c.AcceptTransfer certID).2 = none
        ↔ ∃ cert, c.record certID = some cert ∧ cert.Transfer.Status = Pending) ∧
    (collisionRegistry.userModel.GetUserByEmail collidingEmailB
        = .error ("No user with email " ++ collidingEmailB ++ " found") ∧
     (collisionRegistry.userModel.CreateUser
        { ID := "", Name := collidingEmailB, Email := collidingEmailB }).2.2
        = some "User already exists" ∧
     (collisionRegistry.AcceptTransfer (GenerateIDFromString "Blah")).2 = none) :=
  ⟨acceptTransfer_ok_iff, by decide⟩

/-- C19, worked example: accepted on `pendingRegistry`, refused on `idleRegistry` and on an
id that is not stored. -/
theorem C19_acceptTransfer_ok_iff_witness :
    ((pendingRegistry NewUserModel).AcceptTransfer "c1").2 = none ∧
    (idleRegistry.AcceptTransfer "c1").2 ≠ none ∧
    (idleRegistry.AcceptTransfer "sadasd").2 ≠ none :=
  ⟨(C19_acceptTransfer_ok_iff.1 (pendingRegistry NewUserModel) "c1").2
      ⟨{ certBlah with ID := "c1",
                       Transfer := { Email := "bob@table.com", Status := Pending } },
       by decide, rfl⟩,
   fun h => by
     obtain ⟨cert, hl, hst⟩ := (C19_acceptTransfer_ok_iff.1 idleRegistry "c1").1 h
     have hc : cert = { certBlah with ID := "c1" } := by
       have hl2 : idleRegistry.record "c1" = some { certBlah with ID := "c1" } := by decide
       rw [hl2] at hl
       exact (Option.some.inj hl).symm
     rw [hc] at hst
     exact absurd hst (by decide),
   fun h => by
     obtain ⟨cert, hl, _⟩ := (C19_acceptTransfer_ok_iff.1 idleRegistry "sadasd").1 h
     have hl2 : idleRegistry.record "sadasd" = none := by decide
     rw [hl2] at hl
     exact Option.noConfusion hl⟩

/-- C20: in every state reached from a new registry over a new user directory by any
sequence of calls (`CreateUser` directly or through `AcceptTransfer` among them), the id map
and the e-mail map describe the same users: a user stored under `k` has `ID = k`, `k` is
`GenerateIDFromString` of its e-mail, and the e-mail map holds that user at its e-mail; a
user held by the e-mail map at `e` has `Email = e` and is stored in the id map under its
`ID`. -/
theorem C20_directory_indexes_agree (ops : List Op) :
    (∀ k u, ((NewCertificateModel NewUserModel).run ops).userModel.store.lookup k = some u →
      u.ID = k ∧ k = GenerateIDFromString u.Email ∧
      ((NewCertificateModel NewUserModel).run ops).userModel.emailIndex.lookup u.Email
        = some u) ∧
    (∀ e u, ((NewCertificateModel NewUserModel).run ops).userModel.emailIndex.lookup e = some u →
      u.Email = e ∧
      ((NewCertificateModel NewUserModel).run ops).userModel.store.lookup u.ID = some u) :=
  reachable_indexed ops

set_option maxRecDepth 100000 in
/-- C20, worked example: the user created by accepting a transfer is found under its id and
under its e-mail. -/
theorem C20_directory_indexes_agree_witness :
    ((NewCertificateModel NewUserModel).run
        [.write 0 certBlah,
         .createCertificate 0,
         .createTransfer (GenerateIDFromString "Blah")
           { Email := "bob@table.com", Status := Pending },
         .acceptTransfer (GenerateIDFromString "Blah")]).userModel.emailIndex.lookup
        "bob@table.com"
      = some { ID := GenerateIDFromString "bob@table.com", Email := "bob@table.com",
               Name := "bob@table.com" } ∧
    ((NewCertificateModel NewUserModel).run
        [.write 0 certBlah,
         .createCertificate 0,
         .createTransfer (GenerateIDFromString "Blah")
           { Email := "bob@table.com", Status := Pending },
         .acceptTransfer (GenerateIDFromString "Blah")]).userModel.store.lookup
        (GenerateIDFromString "bob@table.com")
      = some { ID := GenerateIDFromString "bob@table.com", Email := "bob@table.com",
               Name := "bob@table.com" } :=
  ⟨by decide,
   ((C20_directory_indexes_agree
      [.write 0 certBlah,
       .createCertificate 0,
       .createTransfer (GenerateIDFromString "Blah")
         { Email := "bob@table.com", Status := Pending },
       .acceptTransfer (GenerateIDFromString "Blah")]).2 "bob@table.com"
      { ID := GenerateIDFromString "bob@table.com", Email := "bob@table.com",
        Name := "bob@table.com" } (by decide)).2⟩

/-! ### Frame of `AcceptTransfer` -/

/-- C21 (as amended): a successful `AcceptTransfer certID` writes, in the certificate
store, only the `OwnerID` and the `Transfer` of the record behind the pointer stored under
`certID`: its `ID`, `Title`, `CreatedAt`, `Year` and `Note` are kept, the map from ids to
pointers, so the set of stored ids, is the same, every other record is the same, and so is
the certificate under every id that holds another pointer. In the user directory every
entry of the id map and of the e-mail map is kept as it was, every new key of the id map is
one and the same key, and the id map (so the list of `GetUsers`) grows by at most one. -/
theorem C21_acceptTransfer_frame (c : CertificateModel) (certID : String)
    (hok : (c.AcceptTransfer certID).2 = none) :
    (∃ (p : Ptr) (owner : String) (tsx : Transfer),
      c.store.lookup certID = some p ∧
      (c.AcceptTransfer certID).1.record certID
        = some { ID := (c.heap p).ID, Title := (c.heap p).Title,
                 CreatedAt := (c.heap p).CreatedAt, OwnerID := owner,
                 Year := (c.heap p).Year, Note := (c.heap p).Note, Transfer := tsx } ∧
      (∀ q, q ≠ p → (c.AcceptTransfer certID).1.heap q = c.heap q) ∧
      (∀ k q, c.store.lookup k = some q → q ≠ p →
        (c.AcceptTransfer certID).1.record k = c.record k) ∧
      (∀ k, c.store.lookup k = some p →
        (c.AcceptTransfer certID).1.record k = (c.AcceptTransfer certID).1.record certID)) ∧
    (c.AcceptTransfer certID).1.store = c.store ∧
    (∀ k, k ∈ (c.AcceptTransfer certID).1.store ↔ k ∈ c.store) ∧
    (∀ k u, c.userModel.store.lookup k = some u →
      (c.AcceptTransfer certID).1.userModel.store.lookup k = some u) ∧
    (∀ e u, c.userModel.emailIndex.lookup e = some u →
      (c.AcceptTransfer certID).1.userModel.emailIndex.lookup e = some u) ∧
    (∀ k1 k2, k1 ∈ (c.AcceptTransfer certID).1.userModel.store → k1 ∉ c.userModel.store →
      k2 ∈ (c.AcceptTransfer certID).1.userModel.store → k2 ∉ c.userModel.store → k1 = k2) ∧
    (c.AcceptTransfer certID).1.userModel.store.keys.length
      ≤ c.userModel.store.keys.length + 1 ∧
    (c.AcceptTransfer certID).1.userModel.GetUsers.len ≤ c.userModel.GetUsers.len + 1 := by
  obtain ⟨cert, h, hst⟩ := (acceptTransfer_ok_iff c certID).1 hok
  obtain ⟨p, hp, rfl⟩ := (record_eq_some c certID cert).1 h
  obtain ⟨d, owner, heq⟩ := acceptTransfer_pending c certID p hp hst
  have hstore : (c.AcceptTransfer certID).1.store = c.store := by rw [heq]
  have hheap : (c.AcceptTransfer certID).1.heap
      = Function.update c.heap p
          { c.heap p with OwnerID := owner.ID, Transfer := { Email := "", Status := None } } := by
    rw [heq]
  have hdir : (∀ k u, c.userModel.store.lookup k = some u →
        (c.AcceptTransfer certID).1.userModel.store.lookup k = some u) ∧
      (∀ e u, c.userModel.emailIndex.lookup e = some u →
        (c.AcceptTransfer certID).1.userModel.emailIndex.lookup e = some u) ∧
      (∃ id, ∀ k, k ∈ (c.AcceptTransfer certID).1.userModel.store →
        k ∈ c.userModel.store ∨ k = id) ∧
      (c.AcceptTransfer certID).1.userModel.store.keys.length
        ≤ c.userModel.store.keys.length + 1 := by
    rcases acceptTransfer_directory c certID p hp hst with hsame | ⟨x, hx, hnew⟩
    · rw [hsame]
      exact ⟨fun _ _ hk => hk, fun _ _ hk => hk, ⟨"", fun _ hk => Or.inl hk⟩, Nat.le_succ _⟩
    · rw [hnew]
      obtain ⟨f1, f2, f3, f4⟩ := createUser_frame c.userModel x hx
      exact ⟨f1, f2, ⟨_, f3⟩, f4⟩
  obtain ⟨d1, d2, ⟨id, d3⟩, d4⟩ := hdir
  refine ⟨⟨p, owner.ID, { Email := "", Status := None }, hp, ?_, ?_, ?_, ?_⟩, hstore, ?_,
    d1, d2, ?_, d4, ?_⟩
  · simp [CertificateModel.record, hstore, hheap, hp]
  · intro q hq
    rw [hheap]
    exact Function.update_noteq hq _ _
  · intro k q hk hq
    simp [CertificateModel.record, hstore, hheap, hk, Function.update_noteq hq]
  · intro k hk
    simp [CertificateModel.record, hstore, hk, hp]
  · intro k
    rw [hstore]
  · intro k1 k2 h1 n1 h2 n2
    rcases d3 k1 h1 with a1 | a1
    · exact absurd a1 n1
    · rcases d3 k2 h2 with a2 | a2
      · exact absurd a2 n2
      · rw [a1, a2]
  · rw [getUsers_eq, getUsers_eq]
    simpa [Slice.len, AList.keys, List.keys] using d4

set_option maxRecDepth 100000 in
/-- C21, worked example: the transfer of `pendingRegistry` accepted over a directory that
holds Bob (no user added) and over an empty one (one user added). -/
theorem C21_acceptTransfer_frame_witness :
    ((pendingRegistry bobDirectory).AcceptTransfer "c1").2 = none ∧
    ((pendingRegistry bobDirectory).AcceptTransfer "c1").1.userModel.GetUsers.len = 1 ∧
    ((pendingRegistry NewUserModel).AcceptTransfer "c1").1.userModel.GetUsers.len = 1 ∧
    ((pendingRegistry bobDirectory).AcceptTransfer "c1").1.store
      = (pendingRegistry bobDirectory).store ∧
    (∀ k u, bobDirectory.store.lookup k = some u →
      ((pendingRegistry bobDirectory).AcceptTransfer "c1").1.userModel.store.lookup k
        = some u) :=
  ⟨by decide, by decide, by decide,
   (C21_acceptTransfer_frame (pendingRegistry bobDirectory) "c1" (by decide)).2.1,
   (C21_acceptTransfer_frame (pendingRegistry bobDirectory) "c1" (by decide)).2.2.2.1⟩

set_option maxRecDepth 100000 in
/-- C21 as stated fails: in `aliasedRegistry` one record is stored under the ids of `"Blah"`
and of `"Other"`; once a transfer is opened on it, a successful `AcceptTransfer` on the
first id changes the owner and the transfer of the certificate read under the second. -/
theorem C21_counterexample :
    ¬ ∀ (c : CertificateModel) (certID : String),
      (c.AcceptTransfer certID).2 = none →
      (∃ (cert : Certificate) (owner : String) (tsx : Transfer),
        c.record certID = some cert ∧
        (c.AcceptTransfer certID).1.record certID
          = some { cert with OwnerID := owner, Transfer := tsx }) ∧
      (∀ k, k ∈ (c.AcceptTransfer certID).1.store ↔ k ∈ c.store) ∧
      (∀ k, k ≠ certID → (c.AcceptTransfer certID).1.record k = c.record k) ∧
      (∀ k u, c.userModel.store.lookup k = some u →
        (c.AcceptTransfer certID).1.userModel.store.lookup k = some u) ∧
      (c.AcceptTransfer certID).1.userModel.GetUsers.len ≤ c.userModel.GetUsers.len + 1 := by
  intro h
  have h1 := (h (aliasedRegistry.CreateTransfer (GenerateIDFromString "Blah")
      { Email := "bob@table.com", Status := Pending }).1 (GenerateIDFromString "Blah")
    (by decide)).2.2.1 (GenerateIDFromString "Other") (by decide)
  exact absurd h1 (by decide)

end Verisart
